import Mathlib

/-!
# Cycle-compensated timer, RISC-V implementation

A shallow embedding of
`tools/unit-test-app/components/test_utils/ccomp_timer_impl_riscv.c`.

* `uint32_t` values are natural numbers, `int64_t` values are integers; every
  value stored in a field or produced by an arithmetic operator is reduced to
  the range of its C type (`to_uint32`, `to_int64`).  Signed overflow, which C
  leaves undefined, is modelled as the two's-complement wrap of the target.
* The global array `s_status` is a function from core identifiers to records.
* Each function takes the value `cpu_hal_get_core_id()` returns during the
  call (`core`) and, where it reads them, the value of
  `cpu_hal_get_cycle_count()` (`cycle_count`) and of `esp_clk_cpu_freq()`.
* The console output of `ccomp_timer_impl_get_time` is not modelled.
* Preemption of `ccomp_timer_impl_stop` by the tick interrupt is modelled
  between its statements (`ccomp_timer_impl_stop_preempted`): a tick runs
  `update_ccount` only while the callback is registered on the core.
-/

namespace CcompTimer

/-! ## Machine integers -/

/-- Largest value of a `uint32_t`. -/
def UINT32_MAX : Nat := 4294967295

/-- Largest value of an `int64_t`. -/
def INT64_MAX : Int := 9223372036854775807

/-- Smallest value of an `int64_t`. -/
def INT64_MIN : Int := -9223372036854775808

/-- Conversion to `uint32_t`: reduction modulo 2^32. -/
def to_uint32 (x : Int) : Nat := (x % 4294967296).toNat

/-- Conversion to `int64_t`: the two's-complement representative modulo 2^64. -/
def to_int64 (x : Int) : Int :=
  (x + 9223372036854775808) % 18446744073709551616 - 9223372036854775808

/-- Result code of the lifecycle functions. -/
abbrev esp_err_t := Int

/-- Success. -/
def ESP_OK : esp_err_t := 0

/-- Out of memory: the code the hook registry reports when no slot is free. -/
def ESP_ERR_NO_MEM : esp_err_t := 257

/-! ## Data model -/

/-- State of one timer (`ccomp_timer_state_t`). -/
inductive ccomp_timer_state_t
  | PERF_TIMER_UNINIT
  | PERF_TIMER_IDLE
  | PERF_TIMER_ACTIVE
  deriving DecidableEq

open ccomp_timer_state_t

/-- Record of one core (`ccomp_timer_status_t`): `last_ccount` is a `uint32_t`,
`ccount` an `int64_t`. -/
structure ccomp_timer_status_t where
  last_ccount : Nat
  state : ccomp_timer_state_t
  ccount : Int
  deriving DecidableEq

/-- The fields of a record hold values of their C types. -/
def ccomp_timer_status_t.in_range (r : ccomp_timer_status_t) : Prop :=
  r.last_ccount ≤ UINT32_MAX ∧ INT64_MIN ≤ r.ccount ∧ r.ccount ≤ INT64_MAX

/-- Modelled from the spec: the periodic-callback registry of one core
(`esp_freertos_hooks`, not part of the file).  It has a number of free
registration slots and counts the registrations of `update_ccount`. -/
structure tick_hooks_t where
  free_slots : Nat
  registered : Nat
  deriving DecidableEq

/-- Global state: the array `s_status` and the tick-hook registry of each core. -/
structure ccomp_timer_globals where
  s_status : Nat → ccomp_timer_status_t
  tick_cb : Nat → tick_hooks_t

/-- Modelled from the spec: registering `update_ccount` on core `cpuid` fails
with `ESP_ERR_NO_MEM` when no registration slot is available and otherwise
takes one slot. -/
def esp_register_freertos_tick_hook_for_cpu (cpuid : Nat) (hooks : Nat → tick_hooks_t) :
    esp_err_t × (Nat → tick_hooks_t) :=
  if (hooks cpuid).free_slots = 0 then
    (ESP_ERR_NO_MEM, hooks)
  else
    (ESP_OK, Function.update hooks cpuid
      ⟨(hooks cpuid).free_slots - 1, (hooks cpuid).registered + 1⟩)

/-- Modelled from the spec: deregistering `update_ccount` on core `cpuid`
releases every slot it holds there. -/
def esp_deregister_freertos_tick_hook_for_cpu (cpuid : Nat) (hooks : Nat → tick_hooks_t) :
    Nat → tick_hooks_t :=
  Function.update hooks cpuid
    ⟨(hooks cpuid).free_slots + (hooks cpuid).registered, 0⟩

/-- Assignment to `s_status[core]`. -/
def set_status (g : ccomp_timer_globals) (core : Nat) (r : ccomp_timer_status_t) :
    ccomp_timer_globals :=
  ⟨Function.update g.s_status core r, g.tick_cb⟩

/-- State at program start: `s_status` is zero-initialised. -/
def s_status_boot (hooks : Nat → tick_hooks_t) : ccomp_timer_globals :=
  ⟨fun _ => ⟨0, PERF_TIMER_UNINIT, 0⟩, hooks⟩

/-- State in which every core holds the record `r` and has eight free hook
slots; used to exhibit concrete runs. -/
def globals_of (r : ccomp_timer_status_t) : ccomp_timer_globals :=
  ⟨fun _ => r, fun _ => ⟨8, 0⟩⟩

/-! ## Operations -/

/-- The accumulation step (`update_ccount`), also the periodic callback. -/
def update_ccount (core cycle_count : Nat) (g : ccomp_timer_globals) : ccomp_timer_globals :=
  if (g.s_status core).state = PERF_TIMER_ACTIVE then
    let new_ccount : Int := to_int64 (cycle_count : Int)
    let last_ccount : Int := ((g.s_status core).last_ccount : Int)
    let ccount : Int :=
      if new_ccount > last_ccount then
        to_int64 ((g.s_status core).ccount + to_int64 (new_ccount - last_ccount))
      else
        -- CCOUNT has wrapped around
        to_int64 ((g.s_status core).ccount
          + to_int64 (new_ccount + (to_uint32 ((UINT32_MAX : Int) - last_ccount) : Int)))
    set_status g core ⟨to_uint32 new_ccount, (g.s_status core).state, ccount⟩
  else
    g

/-- The function `ccomp_timer_impl_init`. -/
def ccomp_timer_impl_init (core : Nat) (g : ccomp_timer_globals) :
    esp_err_t × ccomp_timer_globals :=
  (ESP_OK, set_status g core
    ⟨(g.s_status core).last_ccount, PERF_TIMER_IDLE, (g.s_status core).ccount⟩)

/-- The function `ccomp_timer_impl_deinit`. -/
def ccomp_timer_impl_deinit (core : Nat) (g : ccomp_timer_globals) :
    esp_err_t × ccomp_timer_globals :=
  (ESP_OK, set_status g core
    ⟨(g.s_status core).last_ccount, PERF_TIMER_UNINIT, (g.s_status core).ccount⟩)

/-- The function `ccomp_timer_impl_start`; the result of the registration is
discarded, as in the source. -/
def ccomp_timer_impl_start (core cycle_count : Nat) (g : ccomp_timer_globals) :
    esp_err_t × ccomp_timer_globals :=
  let g1 := set_status g core
    ⟨to_uint32 (cycle_count : Int), PERF_TIMER_ACTIVE, (g.s_status core).ccount⟩
  -- Update elapsed cycles every OS tick
  let reg := esp_register_freertos_tick_hook_for_cpu core g1.tick_cb
  (ESP_OK, ⟨g1.s_status, reg.2⟩)

/-- The function `ccomp_timer_impl_stop`. -/
def ccomp_timer_impl_stop (core cycle_count : Nat) (g : ccomp_timer_globals) :
    esp_err_t × ccomp_timer_globals :=
  let g1 : ccomp_timer_globals :=
    ⟨g.s_status, esp_deregister_freertos_tick_hook_for_cpu core g.tick_cb⟩
  let g2 := update_ccount core cycle_count g1
  (ESP_OK, set_status g2 core
    ⟨(g2.s_status core).last_ccount, PERF_TIMER_IDLE, (g2.s_status core).ccount⟩)

/-- The function `ccomp_timer_impl_get_time`: `cycles * 1000000` in `int64_t`,
then the truncating division of C by `esp_clk_cpu_freq()`. -/
def ccomp_timer_impl_get_time (core cycle_count : Nat) (esp_clk_cpu_freq : Int)
    (g : ccomp_timer_globals) : Int × ccomp_timer_globals :=
  let g1 := update_ccount core cycle_count g
  let cycles : Int := (g1.s_status core).ccount
  (to_int64 (Int.tdiv (to_int64 (cycles * 1000000)) esp_clk_cpu_freq), g1)

/-- The function `ccomp_timer_impl_reset`. -/
def ccomp_timer_impl_reset (core : Nat) (g : ccomp_timer_globals) :
    esp_err_t × ccomp_timer_globals :=
  (ESP_OK, set_status g core ⟨0, (g.s_status core).state, 0⟩)

/-- The function `ccomp_timer_impl_is_init`. -/
def ccomp_timer_impl_is_init (core : Nat) (g : ccomp_timer_globals) : Bool :=
  decide ((g.s_status core).state ≠ PERF_TIMER_UNINIT)

/-- The function `ccomp_timer_impl_is_active`. -/
def ccomp_timer_impl_is_active (core : Nat) (g : ccomp_timer_globals) : Bool :=
  decide ((g.s_status core).state = PERF_TIMER_ACTIVE)

/-! ## Vocabulary of the claims -/

/-- The amount one accumulation step adds for a baseline `V` and a count `c`:
`c - V` when `c > V`, else `c + (UINT32_MAX - V)`. -/
def step_amount (V c : Nat) : Int :=
  if c > V then (c : Int) - (V : Int) else (c : Int) + ((UINT32_MAX : Int) - (V : Int))

/-- Forward distance between two samples of a 32-bit counter that wraps to
zero on overflow: the number of increments that take `V` to `c`,
`(c - V) mod 2^32`. -/
def forward_distance (V c : Nat) : Int :=
  ((c : Int) - (V : Int)) % 4294967296

/-- The value floor(a / b) of the spec, the floor of the rational quotient. -/
def floor_div (a b : Int) : Int := ⌊(a : ℚ) / (b : ℚ)⌋

/-- The scenario init, start, reset, stop on one core; `c1` and `c2` are the
counts start and stop read. -/
def run_start_reset_stop (core c1 c2 : Nat) (g : ccomp_timer_globals) : ccomp_timer_globals :=
  (ccomp_timer_impl_stop core c2
    (ccomp_timer_impl_reset core
      (ccomp_timer_impl_start core c1 (ccomp_timer_impl_init core g).2).2).2).2

/-- The scenario init, start, stop on one core; `c1` and `c2` are the counts
start and stop read. -/
def run_start_stop (core c1 c2 : Nat) (g : ccomp_timer_globals) : ccomp_timer_globals :=
  (ccomp_timer_impl_stop core c2
    (ccomp_timer_impl_start core c1 (ccomp_timer_impl_init core g).2).2).2

/-- A registry in which no core has a free slot. -/
def hooks_full : Nat → tick_hooks_t := fun _ => ⟨0, 0⟩

/-- One call made on a core: a function of the file, or a firing of the
periodic callback (`tick`), with the values the collaborators return. -/
inductive ccomp_op
  | init
  | deinit
  | start (cycle_count : Nat)
  | stop (cycle_count : Nat)
  | reset
  | get_time (cycle_count : Nat) (esp_clk_cpu_freq : Int)
  | is_init
  | is_active
  | tick (cycle_count : Nat)
  deriving DecidableEq

/-- A call together with the core that makes it. -/
structure ccomp_call where
  core : Nat
  op : ccomp_op
  deriving DecidableEq

/-- Effect of one call on the global state.  A callback firing runs
`update_ccount` on its core, whether or not a registration is still there. -/
def apply_call (g : ccomp_timer_globals) (x : ccomp_call) : ccomp_timer_globals :=
  match x.op with
  | ccomp_op.init => (ccomp_timer_impl_init x.core g).2
  | ccomp_op.deinit => (ccomp_timer_impl_deinit x.core g).2
  | ccomp_op.start c => (ccomp_timer_impl_start x.core c g).2
  | ccomp_op.stop c => (ccomp_timer_impl_stop x.core c g).2
  | ccomp_op.reset => (ccomp_timer_impl_reset x.core g).2
  | ccomp_op.get_time c f => (ccomp_timer_impl_get_time x.core c f g).2
  | ccomp_op.is_init => g
  | ccomp_op.is_active => g
  | ccomp_op.tick c => update_ccount x.core c g

/-- Effect of a sequence of calls, the first call first. -/
def run_calls (g : ccomp_timer_globals) (xs : List ccomp_call) : ccomp_timer_globals :=
  xs.foldl apply_call g

/-- The calls that set the state field: init, deinit, start and stop. -/
def ccomp_op.is_lifecycle : ccomp_op → Bool
  | ccomp_op.init => true
  | ccomp_op.deinit => true
  | ccomp_op.start _ => true
  | ccomp_op.stop _ => true
  | _ => false

/-- The most recent call among init, deinit, start and stop made on `core`. -/
def last_lifecycle (core : Nat) (xs : List ccomp_call) : Option ccomp_op :=
  ((xs.filter (fun x => decide (x.core = core) && x.op.is_lifecycle)).getLast?).map
    (fun x => x.op)

/-- The calls after which the state is Idle or Active: init, start and stop. -/
def ccomp_op.sets_initialized : ccomp_op → Bool
  | ccomp_op.init => true
  | ccomp_op.start _ => true
  | ccomp_op.stop _ => true
  | _ => false

/-- The state field of a core whose most recent call among init, deinit, start
and stop is the given one; with no such call the boot state remains. -/
def state_after : Option ccomp_op → ccomp_timer_state_t
  | some ccomp_op.init => PERF_TIMER_IDLE
  | some (ccomp_op.start _) => PERF_TIMER_ACTIVE
  | some (ccomp_op.stop _) => PERF_TIMER_IDLE
  | _ => PERF_TIMER_UNINIT

/-- The state field a call leaves on its own core, given the state before. -/
def next_state (st : ccomp_timer_state_t) : ccomp_op → ccomp_timer_state_t
  | ccomp_op.init => PERF_TIMER_IDLE
  | ccomp_op.deinit => PERF_TIMER_UNINIT
  | ccomp_op.start _ => PERF_TIMER_ACTIVE
  | ccomp_op.stop _ => PERF_TIMER_IDLE
  | _ => st

/-- The state after callback firings on `core` that read the given counts, in
order. -/
def run_ticks (core : Nat) (ticks : List Nat) (g : ccomp_timer_globals) : ccomp_timer_globals :=
  ticks.foldl (fun s t => update_ccount core t s) g

/-- The product accumulated_cycles * 1000000 is below 2^63 before and after each
of the accumulation steps on `core` that read the given counts. -/
def product_fits_along (core : Nat) : List Nat → ccomp_timer_globals → Prop
  | [], g => (g.s_status core).ccount * 1000000 < 9223372036854775808
  | t :: ts, g =>
    (g.s_status core).ccount * 1000000 < 9223372036854775808
      ∧ product_fits_along core ts (update_ccount core t g)

/-- The count read by the accumulation step of a call: stop,
get_elapsed_microseconds and a callback firing make one. -/
def ccomp_op.sample : ccomp_op → Option Nat
  | ccomp_op.stop c => some c
  | ccomp_op.get_time c _ => some c
  | ccomp_op.tick c => some c
  | _ => none

/-- The accumulation step of a call, if it makes one, reads a 32-bit count and,
on an Active core, does not overflow the 64-bit accumulator. -/
def no_overflow_step (g : ccomp_timer_globals) (x : ccomp_call) : Prop :=
  match x.op.sample with
  | some c =>
    c ≤ UINT32_MAX
      ∧ ((g.s_status x.core).state = PERF_TIMER_ACTIVE →
          (g.s_status x.core).ccount + step_amount (g.s_status x.core).last_ccount c
            ≤ INT64_MAX)
  | none => True

/-- No call of the sequence overflows the accumulator, from the state `g` on. -/
def no_overflow_along : ccomp_timer_globals → List ccomp_call → Prop
  | _, [] => True
  | g, x :: xs => no_overflow_step g x ∧ no_overflow_along (apply_call g x) xs

/-- Modelled from the spec: the scheduler runs the periodic callback on a core
only while it is registered there; on a core without a registration a tick
runs nothing. -/
def fire_tick (core cycle_count : Nat) (g : ccomp_timer_globals) : ccomp_timer_globals :=
  if 0 < (g.tick_cb core).registered then update_ccount core cycle_count g else g

/-- The ticks of the scheduler on `core` that read the given counts, in order. -/
def fire_ticks (core : Nat) (ticks : List Nat) (g : ccomp_timer_globals) : ccomp_timer_globals :=
  ticks.foldl (fun s t => fire_tick core t s) g

/-- The function `ccomp_timer_impl_stop` statement by statement, preempted by
the scheduler between its statements: the ticks `t1` arrive after the
deregistration and before the accumulation step, the ticks `t2` after the
accumulation step and before the assignment of the state. -/
def ccomp_timer_impl_stop_preempted (core cycle_count : Nat) (t1 t2 : List Nat)
    (g : ccomp_timer_globals) : esp_err_t × ccomp_timer_globals :=
  let g1 : ccomp_timer_globals :=
    ⟨g.s_status, esp_deregister_freertos_tick_hook_for_cpu core g.tick_cb⟩
  let g1t := fire_ticks core t1 g1
  let g2 := update_ccount core cycle_count g1t
  let g2t := fire_ticks core t2 g2
  (ESP_OK, set_status g2t core
    ⟨(g2t.s_status core).last_ccount, PERF_TIMER_IDLE, (g2t.s_status core).ccount⟩)

/-! ## Basic facts -/

theorem to_int64_of_in_range (x : Int) (h1 : INT64_MIN ≤ x) (h2 : x ≤ INT64_MAX) :
    to_int64 x = x := by
  unfold to_int64
  unfold INT64_MIN at h1
  unfold INT64_MAX at h2
  omega

theorem to_uint32_of_le (n : Nat) (h : n ≤ UINT32_MAX) : to_uint32 (n : Int) = n := by
  unfold to_uint32
  unfold UINT32_MAX at h
  omega

@[simp]
theorem set_status_same (g : ccomp_timer_globals) (core : Nat) (r : ccomp_timer_status_t) :
    (set_status g core r).s_status core = r := by
  simp [set_status]

theorem set_status_other (g : ccomp_timer_globals) (core k : Nat) (r : ccomp_timer_status_t)
    (h : k ≠ core) : (set_status g core r).s_status k = g.s_status k := by
  simp [set_status, Function.update_noteq h]

/-- The record of the calling core after an accumulation step on an Active
record, computed without any range assumption on the accumulator. -/
theorem update_ccount_active (core c : Nat) (g : ccomp_timer_globals)
    (hact : (g.s_status core).state = PERF_TIMER_ACTIVE)
    (hV : (g.s_status core).last_ccount ≤ UINT32_MAX) (hc : c ≤ UINT32_MAX) :
    (update_ccount core c g).s_status core =
      ⟨c, PERF_TIMER_ACTIVE,
        to_int64 ((g.s_status core).ccount + step_amount (g.s_status core).last_ccount c)⟩ := by
  have hc64 : to_int64 (c : Int) = c := by
    unfold to_int64; unfold UINT32_MAX at hc; omega
  have hc32 : to_uint32 (c : Int) = c := to_uint32_of_le c hc
  unfold update_ccount
  rw [if_pos hact]
  simp only [set_status_same, hc64, hc32, hact]
  unfold UINT32_MAX at hV hc
  by_cases hgt : c > (g.s_status core).last_ccount
  · have h1 : ((c : Int) > ((g.s_status core).last_ccount : Int)) := by omega
    have h2 : to_int64 ((c : Int) - ((g.s_status core).last_ccount : Int))
        = (c : Int) - ((g.s_status core).last_ccount : Int) := by
      unfold to_int64; omega
    simp only [step_amount, if_pos hgt, if_pos h1, h2]
  · have h1 : ¬ ((c : Int) > ((g.s_status core).last_ccount : Int)) := by omega
    have h3 : ((to_uint32 ((UINT32_MAX : Int) - ((g.s_status core).last_ccount : Int)) : Nat) : Int)
        = (UINT32_MAX : Int) - ((g.s_status core).last_ccount : Int) := by
      unfold to_uint32 UINT32_MAX; omega
    have h2 : to_int64 ((c : Int) + ((UINT32_MAX : Int) - ((g.s_status core).last_ccount : Int)))
        = (c : Int) + ((UINT32_MAX : Int) - ((g.s_status core).last_ccount : Int)) := by
      unfold to_int64 UINT32_MAX; omega
    simp only [step_amount, if_neg hgt, if_neg h1, h3, h2]

theorem update_ccount_inactive (core c : Nat) (g : ccomp_timer_globals)
    (h : (g.s_status core).state ≠ PERF_TIMER_ACTIVE) : update_ccount core c g = g := by
  unfold update_ccount
  rw [if_neg h]

theorem init_status (core : Nat) (g : ccomp_timer_globals) :
    (ccomp_timer_impl_init core g).2.s_status core
      = ⟨(g.s_status core).last_ccount, PERF_TIMER_IDLE, (g.s_status core).ccount⟩ := by
  simp [ccomp_timer_impl_init]

theorem deinit_status (core : Nat) (g : ccomp_timer_globals) :
    (ccomp_timer_impl_deinit core g).2.s_status core
      = ⟨(g.s_status core).last_ccount, PERF_TIMER_UNINIT, (g.s_status core).ccount⟩ := by
  simp [ccomp_timer_impl_deinit]

theorem start_status (core c : Nat) (g : ccomp_timer_globals) :
    (ccomp_timer_impl_start core c g).2.s_status core
      = ⟨to_uint32 (c : Int), PERF_TIMER_ACTIVE, (g.s_status core).ccount⟩ := by
  simp [ccomp_timer_impl_start]

theorem reset_status (core : Nat) (g : ccomp_timer_globals) :
    (ccomp_timer_impl_reset core g).2.s_status core = ⟨0, (g.s_status core).state, 0⟩ := by
  simp [ccomp_timer_impl_reset]

theorem stop_status_active (core c : Nat) (g : ccomp_timer_globals)
    (hact : (g.s_status core).state = PERF_TIMER_ACTIVE)
    (hV : (g.s_status core).last_ccount ≤ UINT32_MAX) (hc : c ≤ UINT32_MAX) :
    (ccomp_timer_impl_stop core c g).2.s_status core
      = ⟨c, PERF_TIMER_IDLE,
          to_int64 ((g.s_status core).ccount + step_amount (g.s_status core).last_ccount c)⟩ := by
  have h := update_ccount_active core c
    ⟨g.s_status, esp_deregister_freertos_tick_hook_for_cpu core g.tick_cb⟩ hact hV hc
  simp only [ccomp_timer_impl_stop, set_status_same, h]

theorem stop_status_inactive (core c : Nat) (g : ccomp_timer_globals)
    (h : (g.s_status core).state ≠ PERF_TIMER_ACTIVE) :
    (ccomp_timer_impl_stop core c g).2.s_status core
      = ⟨(g.s_status core).last_ccount, PERF_TIMER_IDLE, (g.s_status core).ccount⟩ := by
  have h1 := update_ccount_inactive core c
    ⟨g.s_status, esp_deregister_freertos_tick_hook_for_cpu core g.tick_cb⟩ h
  simp only [ccomp_timer_impl_stop, set_status_same, h1]

theorem floor_div_eq_ediv (a b : Int) (hb : 0 < b) : floor_div a b = a / b := by
  unfold floor_div
  have h : ((b.toNat : ℕ) : ℚ) = (b : ℚ) := by
    have h1 : ((b.toNat : ℕ) : ℤ) = b := Int.toNat_of_nonneg hb.le
    exact_mod_cast h1
  have h2 := Rat.floor_intCast_div_natCast a b.toNat
  rw [h, Int.toNat_of_nonneg hb.le] at h2
  exact h2

/-- The value `ccomp_timer_impl_get_time` returns when the accumulator after its
accumulation step is `C`, with `0 ≤ C` and `C * 1000000` representable. -/
theorem get_time_value (core c : Nat) (F C : Int) (g : ccomp_timer_globals)
    (hC : ((update_ccount core c g).s_status core).ccount = C)
    (h0 : 0 ≤ C) (hmul : C * 1000000 ≤ INT64_MAX) (hF : 0 < F) :
    (ccomp_timer_impl_get_time core c F g).1 = floor_div (C * 1000000) F := by
  have hlo : INT64_MIN ≤ C * 1000000 := by unfold INT64_MIN; omega
  have hq0 : 0 ≤ C * 1000000 / F := Int.ediv_nonneg (by omega) hF.le
  have hqle : C * 1000000 / F ≤ C * 1000000 :=
    Int.ediv_le_self _ (by omega)
  simp only [ccomp_timer_impl_get_time, hC]
  rw [to_int64_of_in_range _ hlo hmul, Int.tdiv_eq_ediv (by omega) hF.le,
    floor_div_eq_ediv _ _ hF]
  exact to_int64_of_in_range _ (by unfold INT64_MIN; omega) (by omega)

/-! ## The accumulation step -/

/-- C1: one accumulation step on an Active record with last_sample = V and
accumulated_cycles = A that reads the 32-bit count c leaves accumulated_cycles
equal to the 64-bit sum A + (c - V) when c > V and A + c + (UINT32_MAX - V) when
c <= V, the exact sum whenever it fits the accumulator; the amount added for a
wrapped sample is non-negative; last_sample becomes c and the state stays
Active. -/
theorem update_ccount_accumulates (core c V : Nat) (A : Int) (g : ccomp_timer_globals)
    (hact : (g.s_status core).state = PERF_TIMER_ACTIVE)
    (hV : (g.s_status core).last_ccount = V) (hA : (g.s_status core).ccount = A)
    (hr : (g.s_status core).in_range) (hc : c ≤ UINT32_MAX) :
    (c > V → ((update_ccount core c g).s_status core).ccount
        = to_int64 (A + ((c : Int) - (V : Int))))
    ∧ (c ≤ V → ((update_ccount core c g).s_status core).ccount
          = to_int64 (A + (c : Int) + ((UINT32_MAX : Int) - (V : Int)))
        ∧ 0 ≤ (c : Int) + ((UINT32_MAX : Int) - (V : Int)))
    ∧ (A + step_amount V c ≤ INT64_MAX →
        ((update_ccount core c g).s_status core).ccount = A + step_amount V c)
    ∧ ((update_ccount core c g).s_status core).last_ccount = c
    ∧ ((update_ccount core c g).s_status core).state = PERF_TIMER_ACTIVE := by
  obtain ⟨hVr, hlo, hhi⟩ := hr
  rw [update_ccount_active core c g hact hVr hc, hV, hA]
  rw [hV] at hVr
  rw [hA] at hlo hhi
  have hVr2 : V ≤ 4294967295 := hVr
  have hc2 : c ≤ 4294967295 := hc
  refine ⟨?_, ?_, ?_, rfl, rfl⟩
  · intro hgt
    simp only [step_amount, if_pos hgt]
  · intro hle
    have hng : ¬ c > V := by omega
    simp only [step_amount, if_neg hng]
    refine ⟨?_, ?_⟩
    · congr 1
      omega
    · unfold UINT32_MAX
      omega
  · intro hfit
    have hnn : 0 ≤ step_amount V c := by
      unfold step_amount UINT32_MAX
      split <;> omega
    exact to_int64_of_in_range _ (by omega) hfit

/-- Witness for C1: a wrapped sample, from 4294967000 to 500, adds 795 cycles. -/
theorem update_ccount_accumulates_witness :
    (globals_of ⟨4294967000, PERF_TIMER_ACTIVE, 1000⟩).s_status 0
        = ⟨4294967000, PERF_TIMER_ACTIVE, 1000⟩
    ∧ ((update_ccount 0 500 (globals_of ⟨4294967000, PERF_TIMER_ACTIVE, 1000⟩)).s_status 0).ccount
        = 1000 + step_amount 4294967000 500
    ∧ step_amount 4294967000 500 = 795 :=
  ⟨rfl,
    (update_ccount_accumulates 0 500 4294967000 1000
      (globals_of ⟨4294967000, PERF_TIMER_ACTIVE, 1000⟩) rfl rfl rfl
      (by simp [ccomp_timer_status_t.in_range, globals_of, UINT32_MAX, INT64_MIN, INT64_MAX])
      (by decide)).2.2.1 (by decide),
    by decide⟩

/-- C2: at the failing inputs the accumulation step adds one cycle less than the
forward distance between the samples: for last_sample = UINT32_MAX and a count
of 0 (one increment, which wraps) it adds 0, and from 4294967000 to 500
(distance 796) it adds 795. -/
theorem update_ccount_wrap_one_short :
    forward_distance 4294967295 0 = 1
    ∧ to_uint32 ((4294967295 : Int) + 1) = 0
    ∧ ((update_ccount 0 0 (globals_of ⟨4294967295, PERF_TIMER_ACTIVE, 0⟩)).s_status 0).ccount = 0
    ∧ forward_distance 4294967000 500 = 796
    ∧ ((update_ccount 0 500 (globals_of ⟨4294967000, PERF_TIMER_ACTIVE, 0⟩)).s_status 0).ccount
        = 795 := by
  refine ⟨by decide, by decide, ?_, by decide, ?_⟩
  · rw [update_ccount_active 0 0 _ rfl (by decide) (by decide)]
    decide
  · rw [update_ccount_active 0 500 _ rfl (by decide) (by decide)]
    decide

/-- On every wrapped sample (a count below the baseline) the step adds exactly
one less than the forward distance. -/
theorem step_amount_wrapped (V c : Nat) (hV : V ≤ UINT32_MAX) (hlt : c < V) :
    step_amount V c = forward_distance V c - 1 := by
  unfold step_amount forward_distance
  unfold UINT32_MAX at *
  have hng : ¬ c > V := by omega
  rw [if_neg hng]
  omega

/-! ## Scenarios -/

/-- The record of the calling core after init, start, reset and a stop that
reads a count `c2 > 0`, from any state. -/
theorem run_start_reset_stop_status (core c1 c2 : Nat) (g : ccomp_timer_globals)
    (hpos : 0 < c2) (hc2 : c2 ≤ UINT32_MAX) :
    (run_start_reset_stop core c1 c2 g).s_status core
      = ⟨c2, PERF_TIMER_IDLE, (c2 : Int)⟩ := by
  have hc2r : c2 ≤ 4294967295 := hc2
  unfold run_start_reset_stop
  rw [stop_status_active core c2 _ (by rw [reset_status, start_status])
    (by rw [reset_status]; exact Nat.zero_le _) hc2]
  rw [reset_status]
  have hgt : c2 > 0 := hpos
  have hsum : to_int64 ((0 : Int) + ((c2 : Int) - ((0 : Nat) : Int))) = (c2 : Int) := by
    unfold to_int64
    omega
  simp only [step_amount, if_pos hgt, hsum]

/-- The function `ccomp_timer_impl_get_time` on a core that is not Active. -/
theorem get_time_inactive (core c : Nat) (F : Int) (g : ccomp_timer_globals)
    (h : (g.s_status core).state ≠ PERF_TIMER_ACTIVE) :
    ccomp_timer_impl_get_time core c F g
      = (to_int64 (Int.tdiv (to_int64 ((g.s_status core).ccount * 1000000)) F), g) := by
  simp only [ccomp_timer_impl_get_time, update_ccount_inactive core c g h]

/-- C3 (counterexample): on core 0 of a fresh state, init, start at count 100,
reset, stop at count 1000, then get_elapsed_microseconds at 1 MHz returns
1000, not 0. -/
theorem start_reset_stop_not_zero :
    (ccomp_timer_impl_get_time 0 2000 1000000
      (run_start_reset_stop 0 100 1000 (s_status_boot (fun _ => ⟨8, 0⟩)))).1 = 1000
    ∧ (ccomp_timer_impl_get_time 0 2000 1000000
      (run_start_reset_stop 0 100 1000 (s_status_boot (fun _ => ⟨8, 0⟩)))).1 ≠ 0 := by
  have hst := run_start_reset_stop_status 0 100 1000 (s_status_boot (fun _ => ⟨8, 0⟩))
    (by decide) (by decide)
  rw [get_time_inactive 0 2000 1000000 _ (by rw [hst]; decide), hst]
  decide

/-- C3 (amended): from a fresh state, init, start, reset, stop at a count
c2 > 0, then get_elapsed_microseconds at frequency F > 0 returns
floor(c2 * 1000000 / F), the cycles counted from the zeroed baseline; this is
0 exactly when c2 * 1000000 < F. -/
theorem start_reset_stop_elapsed (hooks : Nat → tick_hooks_t) (core c1 c2 c3 : Nat) (F : Int)
    (hpos : 0 < c2) (hc2 : c2 ≤ UINT32_MAX) (hF : 0 < F) :
    (ccomp_timer_impl_get_time core c3 F
        (run_start_reset_stop core c1 c2 (s_status_boot hooks))).1
      = floor_div ((c2 : Int) * 1000000) F
    ∧ ((ccomp_timer_impl_get_time core c3 F
        (run_start_reset_stop core c1 c2 (s_status_boot hooks))).1 = 0
        ↔ (c2 : Int) * 1000000 < F) := by
  have hc2r : c2 ≤ 4294967295 := hc2
  have hst := run_start_reset_stop_status core c1 c2 (s_status_boot hooks) hpos hc2
  have hna : ((run_start_reset_stop core c1 c2 (s_status_boot hooks)).s_status core).state
      ≠ PERF_TIMER_ACTIVE := by rw [hst]; simp
  have hval := get_time_value core c3 F (c2 : Int)
    (run_start_reset_stop core c1 c2 (s_status_boot hooks))
    (by rw [update_ccount_inactive core c3 _ hna, hst])
    (by omega) (by unfold INT64_MAX; omega) hF
  refine ⟨hval, ?_⟩
  rw [hval, floor_div_eq_ediv _ _ hF]
  constructor
  · intro h0
    by_contra hge
    have h1 : 1 ≤ (c2 : Int) * 1000000 / F :=
      (Int.le_ediv_iff_mul_le hF).mpr (by omega)
    omega
  · intro hlt
    exact Int.ediv_eq_zero_of_lt (by omega) hlt

/-- Witness for C3 (amended): stop at count 5000000 at 1 MHz. -/
theorem start_reset_stop_elapsed_witness :
    0 < 5000000 ∧ (0 : Int) < 1000000
    ∧ (ccomp_timer_impl_get_time 0 7 1000000
        (run_start_reset_stop 0 3 5000000 (s_status_boot hooks_full))).1
      = floor_div ((5000000 : Nat) * 1000000) 1000000 :=
  ⟨by decide, by decide,
    (start_reset_stop_elapsed hooks_full 0 3 5000000 7 1000000
      (by decide) (by decide) (by decide)).1⟩

/-- The record of the calling core after init, start at `c0` and stop at
`c0 + N` without wraparound, from a state whose accumulator is 0. -/
theorem run_start_stop_status (core c0 N : Nat) (g : ccomp_timer_globals)
    (hacc : (g.s_status core).ccount = 0) (hN : 1 ≤ N) (hmax : c0 + N ≤ UINT32_MAX) :
    (run_start_stop core c0 (c0 + N) g).s_status core
      = ⟨c0 + N, PERF_TIMER_IDLE, (N : Int)⟩ := by
  have hmax2 : c0 + N ≤ 4294967295 := hmax
  have hc0 : to_uint32 (c0 : Int) = c0 := to_uint32_of_le c0 (by unfold UINT32_MAX; omega)
  unfold run_start_stop
  rw [stop_status_active core (c0 + N) _ (by rw [start_status])
    (by rw [start_status, hc0]; show c0 ≤ 4294967295; omega) hmax]
  rw [start_status, init_status, hacc, hc0]
  have hgt : c0 + N > c0 := by omega
  have hsum : to_int64 ((0 : Int) + (((c0 + N : Nat) : Int) - (c0 : Int))) = (N : Int) := by
    unfold to_int64
    omega
  simp only [step_amount, if_pos hgt, hsum]

/-! ## Registration failure in start -/

/-- C4 (counterexample): with no free slot on core 0 the registration reports
ESP_ERR_NO_MEM, and start still returns ESP_OK. -/
theorem start_hides_registration_failure :
    (esp_register_freertos_tick_hook_for_cpu 0 hooks_full).1 = ESP_ERR_NO_MEM
    ∧ (ccomp_timer_impl_start 0 100 (s_status_boot hooks_full)).1 = ESP_OK
    ∧ (ccomp_timer_impl_start 0 100 (s_status_boot hooks_full)).1
        ≠ (esp_register_freertos_tick_hook_for_cpu 0 hooks_full).1 := by
  refine ⟨by decide, rfl, by decide⟩

/-- C4 (amended): start returns success whatever the registration reports, also
when no slot is free and the registration reports ESP_ERR_NO_MEM; it leaves
the registry as the registration attempt left it, and the record Active with
last_sample equal to the raw count read and accumulated_cycles unchanged. -/
theorem start_returns_ok (core c : Nat) (g : ccomp_timer_globals) (hc : c ≤ UINT32_MAX) :
    (ccomp_timer_impl_start core c g).1 = ESP_OK
    ∧ (ccomp_timer_impl_start core c g).2.tick_cb
        = (esp_register_freertos_tick_hook_for_cpu core g.tick_cb).2
    ∧ (ccomp_timer_impl_start core c g).2.s_status core
        = ⟨c, PERF_TIMER_ACTIVE, (g.s_status core).ccount⟩
    ∧ ((g.tick_cb core).free_slots = 0 →
        (esp_register_freertos_tick_hook_for_cpu core g.tick_cb).1 = ESP_ERR_NO_MEM
        ∧ (ccomp_timer_impl_start core c g).1 = ESP_OK
        ∧ (ccomp_timer_impl_start core c g).2.tick_cb = g.tick_cb) := by
  refine ⟨rfl, rfl, ?_, ?_⟩
  · rw [start_status, to_uint32_of_le c hc]
  · intro hfull
    have hreg : esp_register_freertos_tick_hook_for_cpu core g.tick_cb
        = (ESP_ERR_NO_MEM, g.tick_cb) := by
      unfold esp_register_freertos_tick_hook_for_cpu
      rw [if_pos hfull]
    refine ⟨by rw [hreg], rfl, ?_⟩
    show (esp_register_freertos_tick_hook_for_cpu core g.tick_cb).2 = g.tick_cb
    rw [hreg]

/-- Witness for C4 (amended): with no free slot on core 0, start at count 100
from the boot state returns ESP_OK and leaves the record Active with
last_sample = 100. -/
theorem start_returns_ok_witness :
    100 ≤ UINT32_MAX
    ∧ ((s_status_boot hooks_full).tick_cb 0).free_slots = 0
    ∧ (ccomp_timer_impl_start 0 100 (s_status_boot hooks_full)).1 = ESP_OK
    ∧ (ccomp_timer_impl_start 0 100 (s_status_boot hooks_full)).2.s_status 0
        = ⟨100, PERF_TIMER_ACTIVE, ((s_status_boot hooks_full).s_status 0).ccount⟩
    ∧ (esp_register_freertos_tick_hook_for_cpu 0 (s_status_boot hooks_full).tick_cb).1
        = ESP_ERR_NO_MEM :=
  have h := start_returns_ok 0 100 (s_status_boot hooks_full) (by decide)
  ⟨by decide, rfl, h.1, h.2.2.1, (h.2.2.2 rfl).1⟩

/-! ## Conversion to microseconds -/

/-- C5: for a frequency F > 0, get_elapsed_microseconds returns
floor(C * 1000000 / F), where C is accumulated_cycles after the accumulation
step the call performs, provided 0 <= C and C * 1000000 < 2^63; the state it
leaves is the one after that step, and on a core that is not Active C is the
stored accumulated_cycles and the call changes nothing. -/
theorem get_time_conversion (core c : Nat) (F C : Int) (g : ccomp_timer_globals)
    (hF : 0 < F) (hC : ((update_ccount core c g).s_status core).ccount = C)
    (h0 : 0 ≤ C) (hmul : C * 1000000 < 9223372036854775808) :
    (ccomp_timer_impl_get_time core c F g).1 = floor_div (C * 1000000) F
    ∧ (ccomp_timer_impl_get_time core c F g).2 = update_ccount core c g
    ∧ ((g.s_status core).state ≠ PERF_TIMER_ACTIVE →
        C = (g.s_status core).ccount ∧ (ccomp_timer_impl_get_time core c F g).2 = g) := by
  refine ⟨get_time_value core c F C g hC h0 (by unfold INT64_MAX; omega) hF, rfl, ?_⟩
  intro hna
  rw [update_ccount_inactive core c g hna] at hC
  refine ⟨hC.symm, ?_⟩
  rw [get_time_inactive core c F g hna]

/-- Witness for C5: an Active core with baseline 100 and 5 cycles accumulated
reads the count 1100 at 1 MHz, so C = 1005. -/
theorem get_time_conversion_witness :
    (0 : Int) < 1000000
    ∧ ((update_ccount 0 1100 (globals_of ⟨100, PERF_TIMER_ACTIVE, 5⟩)).s_status 0).ccount = 1005
    ∧ (ccomp_timer_impl_get_time 0 1100 1000000 (globals_of ⟨100, PERF_TIMER_ACTIVE, 5⟩)).1
        = floor_div (1005 * 1000000) 1000000 :=
  have hC : ((update_ccount 0 1100 (globals_of ⟨100, PERF_TIMER_ACTIVE, 5⟩)).s_status 0).ccount
      = 1005 := by
    rw [update_ccount_active 0 1100 _ rfl (by decide) (by decide)]
    decide
  ⟨by decide, hC,
    (get_time_conversion 0 1100 1000000 1005 (globals_of ⟨100, PERF_TIMER_ACTIVE, 5⟩)
      (by decide) hC (by decide) (by decide)).1⟩

/-- C6: from a state whose accumulated_cycles is 0, init, start at count c0,
stop at count c0 + N with N >= 1 and c0 + N <= UINT32_MAX, then
get_elapsed_microseconds at frequency F > 0 returns floor(N * 1000000 / F);
for N = 1000000 and F = 1000000 it returns 1000000. -/
theorem start_stop_elapsed (core c0 N cg : Nat) (F : Int) (g : ccomp_timer_globals)
    (hacc : (g.s_status core).ccount = 0) (hN : 1 ≤ N) (hmax : c0 + N ≤ UINT32_MAX)
    (hF : 0 < F) :
    (ccomp_timer_impl_get_time core cg F (run_start_stop core c0 (c0 + N) g)).1
      = floor_div ((N : Int) * 1000000) F
    ∧ (N = 1000000 → F = 1000000 →
        (ccomp_timer_impl_get_time core cg F (run_start_stop core c0 (c0 + N) g)).1
          = 1000000) := by
  have hmax2 : c0 + N ≤ 4294967295 := hmax
  have hst := run_start_stop_status core c0 N g hacc hN hmax
  have hna : ((run_start_stop core c0 (c0 + N) g).s_status core).state
      ≠ PERF_TIMER_ACTIVE := by rw [hst]; simp
  have hval := get_time_value core cg F (N : Int) (run_start_stop core c0 (c0 + N) g)
    (by rw [update_ccount_inactive core cg _ hna, hst])
    (by omega) (by unfold INT64_MAX; omega) hF
  refine ⟨hval, ?_⟩
  intro hN1 hF1
  rw [hval, floor_div_eq_ediv _ _ hF, hN1, hF1]
  decide

/-- Witness for C6: 1000000 cycles from count 123 at 1 MHz give 1000000
microseconds. -/
theorem start_stop_elapsed_witness :
    (ccomp_timer_impl_get_time 0 9 1000000
      (run_start_stop 0 123 (123 + 1000000) (s_status_boot hooks_full))).1 = 1000000 :=
  (start_stop_elapsed 0 123 1000000 9 1000000 (s_status_boot hooks_full)
    rfl (by decide) (by decide) (by decide)).2 rfl rfl

/-! ## The state field along a sequence of calls -/

theorem update_ccount_state (core c k : Nat) (g : ccomp_timer_globals) :
    ((update_ccount core c g).s_status k).state = (g.s_status k).state := by
  unfold update_ccount
  split
  · by_cases hk : k = core
    · subst hk
      simp
    · rw [set_status_other _ _ _ _ hk]
  · rfl

theorem apply_call_state (g : ccomp_timer_globals) (x : ccomp_call) (k : Nat) :
    ((apply_call g x).s_status k).state
      = if x.core = k then next_state (g.s_status k).state x.op else (g.s_status k).state := by
  obtain ⟨core, op⟩ := x
  by_cases hk : core = k
  · subst hk
    cases op <;>
      simp [apply_call, next_state, ccomp_timer_impl_init, ccomp_timer_impl_deinit,
        ccomp_timer_impl_start, ccomp_timer_impl_stop, ccomp_timer_impl_reset,
        ccomp_timer_impl_get_time, update_ccount_state]
  · have hk2 : k ≠ core := fun h => hk h.symm
    cases op <;>
      simp [apply_call, hk, ccomp_timer_impl_init, ccomp_timer_impl_deinit,
        ccomp_timer_impl_start, ccomp_timer_impl_stop, ccomp_timer_impl_reset,
        ccomp_timer_impl_get_time, update_ccount_state, set_status_other _ _ _ _ hk2]

theorem run_calls_concat (g : ccomp_timer_globals) (xs : List ccomp_call) (x : ccomp_call) :
    run_calls g (xs ++ [x]) = apply_call (run_calls g xs) x := by
  simp [run_calls, List.foldl_append]

theorem last_lifecycle_concat (core : Nat) (xs : List ccomp_call) (x : ccomp_call) :
    last_lifecycle core (xs ++ [x])
      = if x.core = core ∧ x.op.is_lifecycle = true then some x.op
        else last_lifecycle core xs := by
  unfold last_lifecycle
  rw [List.filter_append]
  by_cases h : x.core = core ∧ x.op.is_lifecycle = true
  · rw [if_pos h]
    have hf : List.filter (fun x => decide (x.core = core) && x.op.is_lifecycle) [x] = [x] := by
      simp [List.filter, h.1, h.2]
    rw [hf, List.getLast?_concat]
    rfl
  · rw [if_neg h]
    have hf : List.filter (fun x => decide (x.core = core) && x.op.is_lifecycle) [x] = [] := by
      simp only [List.filter_eq_nil_iff, List.mem_singleton, forall_eq, Bool.and_eq_true,
        decide_eq_true_eq]
      exact h
    rw [hf, List.append_nil]

/-- From the boot state, the state field of a core is decided by the most
recent call among init, deinit, start and stop made on it. -/
theorem run_calls_state (hooks : Nat → tick_hooks_t) (core : Nat) (xs : List ccomp_call) :
    ((run_calls (s_status_boot hooks) xs).s_status core).state
      = state_after (last_lifecycle core xs) := by
  induction xs using List.reverseRecOn with
  | nil => rfl
  | append_singleton l a ih =>
    rw [run_calls_concat, apply_call_state, last_lifecycle_concat, ih]
    obtain ⟨acore, op⟩ := a
    by_cases hk : acore = core
    · cases op <;> simp [hk, next_state, state_after, ccomp_op.is_lifecycle]
    · simp [hk]

/-- A sequence without init, start or stop on a core leaves its state
Uninitialized. -/
theorem run_calls_uninit (core : Nat) (xs : List ccomp_call) :
    ∀ g : ccomp_timer_globals, (g.s_status core).state = PERF_TIMER_UNINIT →
      (∀ x ∈ xs, x.core = core → x.op.sets_initialized = false) →
      ((run_calls g xs).s_status core).state = PERF_TIMER_UNINIT := by
  induction xs with
  | nil => intro g hg _; exact hg
  | cons a l ih =>
    intro g hg hall
    have ha := hall a (List.mem_cons_self a l)
    have hstep : ((apply_call g a).s_status core).state = PERF_TIMER_UNINIT := by
      rw [apply_call_state]
      obtain ⟨acore, op⟩ := a
      by_cases hk : acore = core
      · have hop := ha hk
        cases op <;> simp_all [next_state, ccomp_op.sets_initialized]
      · simp [hk, hg]
    exact ih (apply_call g a) hstep (fun x hx => hall x (List.mem_cons_of_mem a hx))

/-! ## Callback firing followed by stop -/

/-- C7 (counterexample): on an Active core with last_sample = 100 and nothing
accumulated, a callback firing at count 200 followed by a stop that reads the
same count 200 leaves 4294967395 cycles, whereas a single accumulation step at
200 leaves 100; a callback firing that reads the baseline 100 again, followed
by a stop at 300, leaves 4294967495 instead of 200. -/
theorem tick_then_stop_same_count :
    ((ccomp_timer_impl_stop 0 200
        (update_ccount 0 200 (globals_of ⟨100, PERF_TIMER_ACTIVE, 0⟩))).2.s_status 0).ccount
      = 4294967395
    ∧ ((update_ccount 0 200 (globals_of ⟨100, PERF_TIMER_ACTIVE, 0⟩)).s_status 0).ccount
      = 100
    ∧ ((ccomp_timer_impl_stop 0 300
        (update_ccount 0 100 (globals_of ⟨100, PERF_TIMER_ACTIVE, 0⟩))).2.s_status 0).ccount
      = 4294967495
    ∧ ((update_ccount 0 300 (globals_of ⟨100, PERF_TIMER_ACTIVE, 0⟩)).s_status 0).ccount
      = 200 := by
  have h1 := update_ccount_active 0 200 (globals_of ⟨100, PERF_TIMER_ACTIVE, 0⟩) rfl
    (by decide) (by decide)
  have h2 := update_ccount_active 0 100 (globals_of ⟨100, PERF_TIMER_ACTIVE, 0⟩) rfl
    (by decide) (by decide)
  have h3 := update_ccount_active 0 300 (globals_of ⟨100, PERF_TIMER_ACTIVE, 0⟩) rfl
    (by decide) (by decide)
  refine ⟨?_, ?_, ?_, ?_⟩
  · rw [stop_status_active 0 200 _ (by rw [h1]) (by rw [h1]; decide) (by decide), h1]
    decide
  · rw [h1]
    decide
  · rw [stop_status_active 0 300 _ (by rw [h2]) (by rw [h2]; decide) (by decide), h2]
    decide
  · rw [h3]
    decide

/-- C7 (amended): on an Active record with last_sample = V, a callback firing at
count c1 followed by stop at count c2, with V < c1 < c2 and no wraparound,
leaves accumulated_cycles equal to the 64-bit sum A + (c2 - V), the exact sum
whenever it fits the accumulator, which is what a single accumulation step
at c2 leaves; the state is Idle. -/
theorem tick_then_stop_counts_once (core c1 c2 V : Nat) (A : Int) (g : ccomp_timer_globals)
    (hact : (g.s_status core).state = PERF_TIMER_ACTIVE)
    (hV : (g.s_status core).last_ccount = V) (hA : (g.s_status core).ccount = A)
    (hr : (g.s_status core).in_range)
    (h1 : V < c1) (h2 : c1 < c2) (hc2 : c2 ≤ UINT32_MAX) :
    ((ccomp_timer_impl_stop core c2 (update_ccount core c1 g)).2.s_status core).ccount
      = to_int64 (A + ((c2 : Int) - (V : Int)))
    ∧ (A + ((c2 : Int) - (V : Int)) ≤ INT64_MAX →
        ((ccomp_timer_impl_stop core c2 (update_ccount core c1 g)).2.s_status core).ccount
          = A + ((c2 : Int) - (V : Int)))
    ∧ ((ccomp_timer_impl_stop core c2 (update_ccount core c1 g)).2.s_status core).ccount
      = ((update_ccount core c2 g).s_status core).ccount
    ∧ ((ccomp_timer_impl_stop core c2 (update_ccount core c1 g)).2.s_status core).state
      = PERF_TIMER_IDLE := by
  obtain ⟨hVr, hlo, hhi⟩ := hr
  have hc2r : c2 ≤ 4294967295 := hc2
  have hc1 : c1 ≤ UINT32_MAX := by unfold UINT32_MAX; omega
  have ht := update_ccount_active core c1 g hact hVr hc1
  have hs := stop_status_active core c2 (update_ccount core c1 g) (by rw [ht])
    (by rw [ht]; exact hc1) hc2
  rw [ht] at hs
  have hd := update_ccount_active core c2 g hact hVr hc2
  rw [hs, hd, hV, hA]
  rw [hA] at hlo hhi
  have hg1 : c1 > V := h1
  have hg2 : c2 > c1 := h2
  have hg3 : c2 > V := by omega
  simp only [step_amount, if_pos hg1, if_pos hg2, if_pos hg3]
  have hkey : to_int64 (to_int64 (A + ((c1 : Int) - (V : Int))) + ((c2 : Int) - (c1 : Int)))
      = to_int64 (A + ((c2 : Int) - (V : Int))) := by
    unfold to_int64
    omega
  refine ⟨hkey, ?_, hkey, trivial⟩
  intro hfit
  rw [hkey]
  exact to_int64_of_in_range _ (by omega) hfit

/-- Witness for C7 (amended): baseline 100, callback at 200, stop at 350. -/
theorem tick_then_stop_counts_once_witness :
    100 < 200 ∧ 200 < 350
    ∧ ((ccomp_timer_impl_stop 0 350
        (update_ccount 0 200 (globals_of ⟨100, PERF_TIMER_ACTIVE, 7⟩))).2.s_status 0).ccount
      = 7 + ((350 : Nat) - (100 : Nat)) :=
  ⟨by decide, by decide,
    (tick_then_stop_counts_once 0 200 350 100 7 (globals_of ⟨100, PERF_TIMER_ACTIVE, 7⟩)
      rfl rfl rfl
      (by simp [ccomp_timer_status_t.in_range, globals_of, UINT32_MAX, INT64_MIN, INT64_MAX])
      (by decide) (by decide) (by decide)).2.1 (by decide)⟩

/-! ## Reset -/

/-- C8: in any state reset returns success, sets accumulated_cycles and
last_sample to 0 and leaves the state field unchanged; on a core that is not
Active, get_elapsed_microseconds directly after reset returns 0 for every
frequency F > 0. -/
theorem reset_zeroes (core c : Nat) (F : Int) (g : ccomp_timer_globals) (_hF : 0 < F) :
    (ccomp_timer_impl_reset core g).1 = ESP_OK
    ∧ ((ccomp_timer_impl_reset core g).2.s_status core).ccount = 0
    ∧ ((ccomp_timer_impl_reset core g).2.s_status core).last_ccount = 0
    ∧ ((ccomp_timer_impl_reset core g).2.s_status core).state = (g.s_status core).state
    ∧ ((g.s_status core).state ≠ PERF_TIMER_ACTIVE →
        (ccomp_timer_impl_get_time core c F (ccomp_timer_impl_reset core g).2).1 = 0) := by
  refine ⟨rfl, by rw [reset_status], by rw [reset_status], by rw [reset_status], ?_⟩
  intro hna
  rw [get_time_inactive core c F _ (by rw [reset_status]; exact hna), reset_status]
  simp [to_int64]

/-- Witness for C8: an Idle core holding 123456 cycles reads 0 after reset. -/
theorem reset_zeroes_witness :
    (0 : Int) < 160000000
    ∧ ((globals_of ⟨77, PERF_TIMER_IDLE, 123456⟩).s_status 0).state ≠ PERF_TIMER_ACTIVE
    ∧ (ccomp_timer_impl_get_time 0 500 160000000
        (ccomp_timer_impl_reset 0 (globals_of ⟨77, PERF_TIMER_IDLE, 123456⟩)).2).1 = 0 :=
  ⟨by decide, by decide,
    (reset_zeroes 0 500 160000000 (globals_of ⟨77, PERF_TIMER_IDLE, 123456⟩)
      (by decide)).2.2.2.2 (by decide)⟩

/-! ## The state queries -/

/-- C9 (counterexample): from the boot state, a start with no init before it
makes is_initialized true, and so does a stop. -/
theorem is_init_after_start_without_init :
    ccomp_timer_impl_is_init 0
        (run_calls (s_status_boot hooks_full) [⟨0, ccomp_op.start 5⟩]) = true
    ∧ ccomp_timer_impl_is_init 0
        (run_calls (s_status_boot hooks_full) [⟨0, ccomp_op.stop 5⟩]) = true := by
  refine ⟨?_, ?_⟩
  · simp [ccomp_timer_impl_is_init, run_calls_state, last_lifecycle, state_after,
      ccomp_op.is_lifecycle]
  · simp [ccomp_timer_impl_is_init, run_calls_state, last_lifecycle, state_after,
      ccomp_op.is_lifecycle]

/-- C9 (amended): every core starts Uninitialized, and after every sequence of
calls that contains no init, start or stop on a core (reset,
get_elapsed_microseconds, deinit, the queries, callback firings, and any call
on other cores) is_initialized is false on it. -/
theorem is_init_false_without_init_start_stop (hooks : Nat → tick_hooks_t) (core : Nat)
    (xs : List ccomp_call)
    (h : ∀ x ∈ xs, x.core = core → x.op.sets_initialized = false) :
    ((s_status_boot hooks).s_status core).state = PERF_TIMER_UNINIT
    ∧ ccomp_timer_impl_is_init core (s_status_boot hooks) = false
    ∧ ccomp_timer_impl_is_init core (run_calls (s_status_boot hooks) xs) = false := by
  have hrun := run_calls_uninit core xs (s_status_boot hooks) rfl h
  refine ⟨rfl, ?_, ?_⟩
  · simp [ccomp_timer_impl_is_init, s_status_boot]
  · simp [ccomp_timer_impl_is_init, hrun]

/-- Witness for C9 (amended): reset, a callback firing, get, deinit on core 0
and a whole start and stop on core 1 leave core 0 uninitialized. -/
theorem is_init_false_without_init_start_stop_witness :
    ccomp_timer_impl_is_init 0 (run_calls (s_status_boot hooks_full)
      [⟨0, ccomp_op.reset⟩, ⟨0, ccomp_op.tick 40⟩, ⟨1, ccomp_op.init⟩, ⟨1, ccomp_op.start 50⟩,
        ⟨0, ccomp_op.get_time 60 1000000⟩, ⟨0, ccomp_op.deinit⟩, ⟨1, ccomp_op.stop 70⟩])
      = false :=
  (is_init_false_without_init_start_stop hooks_full 0
    [⟨0, ccomp_op.reset⟩, ⟨0, ccomp_op.tick 40⟩, ⟨1, ccomp_op.init⟩, ⟨1, ccomp_op.start 50⟩,
      ⟨0, ccomp_op.get_time 60 1000000⟩, ⟨0, ccomp_op.deinit⟩, ⟨1, ccomp_op.stop 70⟩]
    (by decide)).2.2

/-- C10: after every sequence of calls from the boot state, is_active on a core
is true exactly when the most recent call among init, deinit, start and stop
on that core is a start; reset, get_elapsed_microseconds, the two queries and
callback firings, on any core, never change the answer. -/
theorem is_active_iff_last_start (hooks : Nat → tick_hooks_t) (core : Nat)
    (xs : List ccomp_call) :
    (ccomp_timer_impl_is_active core (run_calls (s_status_boot hooks) xs) = true
      ↔ ∃ c, last_lifecycle core xs = some (ccomp_op.start c))
    ∧ (∀ (g : ccomp_timer_globals) (x : ccomp_call), x.op.is_lifecycle = false →
        ccomp_timer_impl_is_active core (apply_call g x)
          = ccomp_timer_impl_is_active core g) := by
  refine ⟨?_, ?_⟩
  · simp only [ccomp_timer_impl_is_active, decide_eq_true_eq, run_calls_state]
    cases hl : last_lifecycle core xs with
    | none => simp [state_after]
    | some op => cases op <;> simp [state_after]
  · intro g x hx
    simp only [ccomp_timer_impl_is_active, apply_call_state]
    obtain ⟨xcore, op⟩ := x
    by_cases hk : xcore = core
    · cases op <;> simp_all [next_state, ccomp_op.is_lifecycle]
    · simp [hk]

/-- Witness for C10: after init, start, a callback firing, reset and get on
core 0, with a start and stop on core 1 in between, core 0 is active. -/
theorem is_active_iff_last_start_witness :
    ccomp_timer_impl_is_active 0 (run_calls (s_status_boot hooks_full)
      [⟨0, ccomp_op.init⟩, ⟨0, ccomp_op.start 5⟩, ⟨1, ccomp_op.start 6⟩, ⟨0, ccomp_op.tick 9⟩,
        ⟨1, ccomp_op.stop 12⟩, ⟨0, ccomp_op.reset⟩, ⟨0, ccomp_op.get_time 20 1000000⟩])
      = true :=
  (is_active_iff_last_start hooks_full 0
    [⟨0, ccomp_op.init⟩, ⟨0, ccomp_op.start 5⟩, ⟨1, ccomp_op.start 6⟩, ⟨0, ccomp_op.tick 9⟩,
      ⟨1, ccomp_op.stop 12⟩, ⟨0, ccomp_op.reset⟩, ⟨0, ccomp_op.get_time 20 1000000⟩]).1.mpr
    ⟨5, by decide⟩

/-! ## Frame: what a call leaves unchanged -/

theorem update_ccount_other (core c k : Nat) (g : ccomp_timer_globals) (hk : k ≠ core) :
    (update_ccount core c g).s_status k = g.s_status k := by
  unfold update_ccount
  split
  · rw [set_status_other _ _ _ _ hk]
  · rfl

theorem update_ccount_tick_cb (core c : Nat) (g : ccomp_timer_globals) :
    (update_ccount core c g).tick_cb = g.tick_cb := by
  unfold update_ccount
  split <;> rfl

/-- A call made on one core leaves the record of every other core unchanged. -/
theorem apply_call_other (g : ccomp_timer_globals) (x : ccomp_call) (k : Nat)
    (hk : x.core ≠ k) : (apply_call g x).s_status k = g.s_status k := by
  obtain ⟨core, op⟩ := x
  have hk2 : k ≠ core := fun h => hk h.symm
  cases op <;>
    simp [apply_call, ccomp_timer_impl_init, ccomp_timer_impl_deinit,
      ccomp_timer_impl_start, ccomp_timer_impl_stop, ccomp_timer_impl_reset,
      ccomp_timer_impl_get_time, set_status_other _ _ _ _ hk2,
      update_ccount_other _ _ _ _ hk2]

/-- The record the accumulation step leaves on its core depends only on the
record it finds there. -/
theorem update_ccount_status_congr (core c : Nat) (g g' : ccomp_timer_globals)
    (h : g.s_status core = g'.s_status core) :
    (update_ccount core c g).s_status core = (update_ccount core c g').s_status core := by
  unfold update_ccount
  rw [h]
  split
  · simp
  · exact h

theorem run_calls_other (k : Nat) (xs : List ccomp_call) :
    ∀ g : ccomp_timer_globals, (∀ x ∈ xs, x.core ≠ k) →
      (run_calls g xs).s_status k = g.s_status k := by
  induction xs with
  | nil => intro g _; rfl
  | cons a l ih =>
    intro g hall
    have h1 := ih (apply_call g a) (fun x hx => hall x (List.mem_cons_of_mem a hx))
    have h2 := apply_call_other g a k (hall a (List.mem_cons_self a l))
    simp only [run_calls, List.foldl_cons] at h1 ⊢
    rw [h1, h2]

/-! ## Re-initialisation -/

/-- C12 (counterexample): init on an Idle core holding 5 cycles, and on an Active
core holding 5 cycles, leaves accumulated_cycles at 5. -/
theorem init_keeps_accumulated :
    ((ccomp_timer_impl_init 0 (globals_of ⟨77, PERF_TIMER_IDLE, 5⟩)).2.s_status 0).ccount = 5
    ∧ ((ccomp_timer_impl_init 0 (globals_of ⟨77, PERF_TIMER_ACTIVE, 5⟩)).2.s_status 0).ccount
        = 5 := by
  refine ⟨?_, ?_⟩ <;> rw [init_status] <;> rfl

/-- C12 (amended): init on a core in any state, already initialized or not, leaves
accumulated_cycles and last_sample as they were and only sets the state to
Idle; accumulated_cycles is 0 after it exactly when it was 0 before. -/
theorem init_preserves_accumulated (core : Nat) (g : ccomp_timer_globals) :
    ((ccomp_timer_impl_init core g).2.s_status core).ccount = (g.s_status core).ccount
    ∧ ((ccomp_timer_impl_init core g).2.s_status core).last_ccount
        = (g.s_status core).last_ccount
    ∧ ((ccomp_timer_impl_init core g).2.s_status core).state = PERF_TIMER_IDLE
    ∧ (((ccomp_timer_impl_init core g).2.s_status core).ccount = 0
        ↔ (g.s_status core).ccount = 0) := by
  rw [init_status]
  exact ⟨rfl, rfl, rfl, Iff.rfl⟩

/-! ## When the accumulator changes -/

/-- C13: a call changes accumulated_cycles of a core only if it is made on that
core and is a reset or finds the core Active; init, deinit, start and the two
queries leave accumulated_cycles unchanged, and stop, get_elapsed_microseconds
and a callback firing leave accumulated_cycles and last_sample unchanged when
the state is not Active. -/
theorem accumulated_changes_only_active_or_reset (core c : Nat) (F : Int)
    (g : ccomp_timer_globals) :
    (∀ (x : ccomp_call) (k : Nat),
        ((apply_call g x).s_status k).ccount ≠ (g.s_status k).ccount →
        x.core = k ∧ (x.op = ccomp_op.reset ∨ (g.s_status k).state = PERF_TIMER_ACTIVE))
    ∧ ((ccomp_timer_impl_init core g).2.s_status core).ccount = (g.s_status core).ccount
    ∧ ((ccomp_timer_impl_deinit core g).2.s_status core).ccount = (g.s_status core).ccount
    ∧ ((ccomp_timer_impl_start core c g).2.s_status core).ccount = (g.s_status core).ccount
    ∧ apply_call g ⟨core, ccomp_op.is_init⟩ = g
    ∧ apply_call g ⟨core, ccomp_op.is_active⟩ = g
    ∧ ((g.s_status core).state ≠ PERF_TIMER_ACTIVE →
        ((ccomp_timer_impl_stop core c g).2.s_status core).ccount = (g.s_status core).ccount
        ∧ ((ccomp_timer_impl_stop core c g).2.s_status core).last_ccount
            = (g.s_status core).last_ccount
        ∧ (ccomp_timer_impl_get_time core c F g).2 = g
        ∧ update_ccount core c g = g) := by
  refine ⟨?_, by rw [init_status], by rw [deinit_status], by rw [start_status], rfl, rfl, ?_⟩
  · intro x k hne
    by_cases hk : x.core = k
    · refine ⟨hk, ?_⟩
      by_contra hcon
      push_neg at hcon
      obtain ⟨hop, hna⟩ := hcon
      apply hne
      obtain ⟨xcore, op⟩ := x
      simp only at hk hop
      subst hk
      cases op with
      | init => simp only [apply_call]; rw [init_status]
      | deinit => simp only [apply_call]; rw [deinit_status]
      | start c1 => simp only [apply_call]; rw [start_status]
      | stop c1 => simp only [apply_call]; rw [stop_status_inactive _ _ _ hna]
      | reset => exact absurd rfl hop
      | get_time c1 f => simp only [apply_call]; rw [get_time_inactive _ _ _ _ hna]
      | is_init => rfl
      | is_active => rfl
      | tick c1 => simp only [apply_call]; rw [update_ccount_inactive _ _ _ hna]
    · exact absurd (by rw [apply_call_other g x k hk]) hne
  · intro hna
    refine ⟨by rw [stop_status_inactive _ _ _ hna], by rw [stop_status_inactive _ _ _ hna],
      by rw [get_time_inactive _ _ _ _ hna], update_ccount_inactive _ _ _ hna⟩

/-- Witness for C13: a stale callback firing and a stop on an Idle core holding
42 cycles change nothing there. -/
theorem accumulated_changes_only_active_or_reset_witness :
    ((globals_of ⟨9, PERF_TIMER_IDLE, 42⟩).s_status 0).state ≠ PERF_TIMER_ACTIVE
    ∧ ((ccomp_timer_impl_stop 0 500 (globals_of ⟨9, PERF_TIMER_IDLE, 42⟩)).2.s_status 0).ccount
        = ((globals_of ⟨9, PERF_TIMER_IDLE, 42⟩).s_status 0).ccount
    ∧ update_ccount 0 500 (globals_of ⟨9, PERF_TIMER_IDLE, 42⟩)
        = globals_of ⟨9, PERF_TIMER_IDLE, 42⟩ :=
  have h := (accumulated_changes_only_active_or_reset 0 500 1000000
    (globals_of ⟨9, PERF_TIMER_IDLE, 42⟩)).2.2.2.2.2.2 (by decide)
  ⟨by decide, h.1, h.2.2.2⟩

/-! ## Independence of the cores -/

/-- The value `ccomp_timer_impl_get_time` returns depends only on the record of
the calling core. -/
theorem get_time_congr (core c : Nat) (F : Int) (g g' : ccomp_timer_globals)
    (h : g.s_status core = g'.s_status core) :
    (ccomp_timer_impl_get_time core c F g).1 = (ccomp_timer_impl_get_time core c F g').1 := by
  simp only [ccomp_timer_impl_get_time, update_ccount_status_congr core c g g' h]

/-- C14: for distinct cores i and j, every call made on core i leaves the record
of core j unchanged, and after any sequence of calls on core i the record of
core j and the value get_elapsed_microseconds returns on core j are what they
were without that sequence. -/
theorem cores_independent (i j c : Nat) (F : Int) (g : ccomp_timer_globals) (hij : i ≠ j) :
    (∀ op : ccomp_op, (apply_call g ⟨i, op⟩).s_status j = g.s_status j)
    ∧ (∀ xs : List ccomp_call, (∀ x ∈ xs, x.core = i) →
        (run_calls g xs).s_status j = g.s_status j
        ∧ (ccomp_timer_impl_get_time j c F (run_calls g xs)).1
            = (ccomp_timer_impl_get_time j c F g).1) := by
  refine ⟨fun op => apply_call_other g ⟨i, op⟩ j hij, ?_⟩
  intro xs hxs
  have hrec := run_calls_other j xs g (fun x hx => by rw [hxs x hx]; exact hij)
  exact ⟨hrec, get_time_congr j c F _ _ hrec⟩

/-- Witness for C14: a whole measurement on core 0 leaves the Idle core 1, which
holds 3000000 cycles, reading the same value as before. -/
theorem cores_independent_witness :
    (0 : Nat) ≠ 1
    ∧ (ccomp_timer_impl_get_time 1 50 1000000
        (run_calls (globals_of ⟨9, PERF_TIMER_IDLE, 3000000⟩)
          [⟨0, ccomp_op.init⟩, ⟨0, ccomp_op.start 10⟩, ⟨0, ccomp_op.tick 20⟩,
            ⟨0, ccomp_op.stop 30⟩, ⟨0, ccomp_op.reset⟩])).1
      = (ccomp_timer_impl_get_time 1 50 1000000 (globals_of ⟨9, PERF_TIMER_IDLE, 3000000⟩)).1 :=
  ⟨by decide,
    ((cores_independent 0 1 50 1000000 (globals_of ⟨9, PERF_TIMER_IDLE, 3000000⟩)
      (by decide)).2
      [⟨0, ccomp_op.init⟩, ⟨0, ccomp_op.start 10⟩, ⟨0, ccomp_op.tick 20⟩,
        ⟨0, ccomp_op.stop 30⟩, ⟨0, ccomp_op.reset⟩] (by decide)).2⟩

/-! ## The lifecycle functions from any state -/

theorem stop_state (core c : Nat) (g : ccomp_timer_globals) :
    ((ccomp_timer_impl_stop core c g).2.s_status core).state = PERF_TIMER_IDLE := by
  simp [ccomp_timer_impl_stop]

/-- C15: from every prior state, init leaves the state Idle, deinit leaves it
Uninitialized, start leaves it Active with last_sample equal to the raw count
read and accumulated_cycles unchanged, and stop leaves it Idle; each of the
four returns success; is_initialized is true directly after init and false
directly after deinit; init applied twice leaves what init applied once
leaves. -/
theorem lifecycle_from_any_state (core c : Nat) (g : ccomp_timer_globals)
    (hc : c ≤ UINT32_MAX) :
    ((ccomp_timer_impl_init core g).1 = ESP_OK
      ∧ ((ccomp_timer_impl_init core g).2.s_status core).state = PERF_TIMER_IDLE)
    ∧ ((ccomp_timer_impl_deinit core g).1 = ESP_OK
      ∧ ((ccomp_timer_impl_deinit core g).2.s_status core).state = PERF_TIMER_UNINIT)
    ∧ ((ccomp_timer_impl_start core c g).1 = ESP_OK
      ∧ (ccomp_timer_impl_start core c g).2.s_status core
          = ⟨c, PERF_TIMER_ACTIVE, (g.s_status core).ccount⟩)
    ∧ ((ccomp_timer_impl_stop core c g).1 = ESP_OK
      ∧ ((ccomp_timer_impl_stop core c g).2.s_status core).state = PERF_TIMER_IDLE)
    ∧ ccomp_timer_impl_is_init core (ccomp_timer_impl_init core g).2 = true
    ∧ ccomp_timer_impl_is_init core (ccomp_timer_impl_deinit core g).2 = false
    ∧ (ccomp_timer_impl_init core (ccomp_timer_impl_init core g).2).2.s_status
        = (ccomp_timer_impl_init core g).2.s_status
    ∧ (ccomp_timer_impl_init core (ccomp_timer_impl_init core g).2).2.tick_cb
        = (ccomp_timer_impl_init core g).2.tick_cb := by
  refine ⟨⟨rfl, by rw [init_status]⟩, ⟨rfl, by rw [deinit_status]⟩,
    ⟨rfl, by rw [start_status, to_uint32_of_le c hc]⟩, ⟨rfl, stop_state core c g⟩,
    ?_, ?_, ?_, rfl⟩
  · simp [ccomp_timer_impl_is_init, init_status]
  · simp [ccomp_timer_impl_is_init, deinit_status]
  · simp [ccomp_timer_impl_init, set_status]

/-- Witness for C15: start at count 1234 on an uninitialized core holding 8
cycles. -/
theorem lifecycle_from_any_state_witness :
    1234 ≤ UINT32_MAX
    ∧ (ccomp_timer_impl_start 0 1234 (globals_of ⟨0, PERF_TIMER_UNINIT, 8⟩)).2.s_status 0
        = ⟨1234, PERF_TIMER_ACTIVE, 8⟩ :=
  ⟨by decide,
    (lifecycle_from_any_state 0 1234 (globals_of ⟨0, PERF_TIMER_UNINIT, 8⟩)
      (by decide)).2.2.1.2⟩

/-! ## The order of effects in stop -/

theorem fire_ticks_unregistered (core : Nat) (ts : List Nat) (g : ccomp_timer_globals)
    (h : (g.tick_cb core).registered = 0) : fire_ticks core ts g = g := by
  induction ts with
  | nil => rfl
  | cons t l ih =>
    have h1 : fire_tick core t g = g := by
      unfold fire_tick
      rw [if_neg (by omega)]
    show fire_ticks core l (fire_tick core t g) = g
    rw [h1]
    exact ih

theorem deregister_registered (core : Nat) (hooks : Nat → tick_hooks_t) :
    (esp_deregister_freertos_tick_hook_for_cpu core hooks core).registered = 0 := by
  simp [esp_deregister_freertos_tick_hook_for_cpu]

/-- C16: stop deregisters the callback first, then makes one accumulation step
at the count it reads, then assigns Idle.  Because the deregistration comes
first, no tick the scheduler delivers between the statements of stop runs the
callback: the preempted stop does what the unpreempted one does, whereas while
the callback is registered a tick after the accumulation step accumulates
again.  After stop no registration of the callback is left on the core, and
on an Active record with last_sample = V stopped at a count c > V
accumulated_cycles is the 64-bit sum A + (c - V), the exact sum whenever it
fits the accumulator, last_sample is c and the state is Idle. -/
theorem stop_order_of_effects (core c V : Nat) (A : Int) (g : ccomp_timer_globals)
    (hact : (g.s_status core).state = PERF_TIMER_ACTIVE)
    (hV : (g.s_status core).last_ccount = V) (hA : (g.s_status core).ccount = A)
    (hr : (g.s_status core).in_range) (hgt : V < c) (hc : c ≤ UINT32_MAX) :
    (∀ t1 t2 : List Nat,
        ccomp_timer_impl_stop_preempted core c t1 t2 g = ccomp_timer_impl_stop core c g)
    ∧ (∀ t1 t2 : List Nat,
        (ccomp_timer_impl_stop_preempted core c t1 t2 g).2.s_status core
          = ⟨c, PERF_TIMER_IDLE, to_int64 (A + ((c : Int) - (V : Int)))⟩)
    ∧ (0 < (g.tick_cb core).registered → ∀ c2 : Nat, c < c2 → c2 ≤ UINT32_MAX →
        (fire_tick core c2 (update_ccount core c g)).s_status core
          = ⟨c2, PERF_TIMER_ACTIVE,
              to_int64 (to_int64 (A + ((c : Int) - (V : Int))) + ((c2 : Int) - (c : Int)))⟩)
    ∧ (ccomp_timer_impl_stop core c g).2
      = set_status
          (update_ccount core c
            ⟨g.s_status, esp_deregister_freertos_tick_hook_for_cpu core g.tick_cb⟩) core
          ⟨((update_ccount core c
              ⟨g.s_status, esp_deregister_freertos_tick_hook_for_cpu core g.tick_cb⟩).s_status
                core).last_ccount,
            PERF_TIMER_IDLE,
            ((update_ccount core c
              ⟨g.s_status, esp_deregister_freertos_tick_hook_for_cpu core g.tick_cb⟩).s_status
                core).ccount⟩
    ∧ (ccomp_timer_impl_stop core c g).2.tick_cb
        = esp_deregister_freertos_tick_hook_for_cpu core g.tick_cb
    ∧ ((ccomp_timer_impl_stop core c g).2.tick_cb core).registered = 0
    ∧ (ccomp_timer_impl_stop core c g).2.s_status core
        = ⟨c, PERF_TIMER_IDLE, to_int64 (A + ((c : Int) - (V : Int)))⟩
    ∧ (A + ((c : Int) - (V : Int)) ≤ INT64_MAX →
        ((ccomp_timer_impl_stop core c g).2.s_status core).ccount
          = A + ((c : Int) - (V : Int)))
    ∧ (ccomp_timer_impl_stop core c g).1 = ESP_OK := by
  obtain ⟨hVr, hlo, _⟩ := hr
  have hcb : (ccomp_timer_impl_stop core c g).2.tick_cb
      = esp_deregister_freertos_tick_hook_for_cpu core g.tick_cb := by
    simp only [ccomp_timer_impl_stop, set_status, update_ccount_tick_cb]
  have hst := stop_status_active core c g hact hVr hc
  have hg : c > V := hgt
  rw [hV, hA] at hst
  simp only [step_amount, if_pos hg] at hst
  rw [hA] at hlo
  have hpre : ∀ t1 t2 : List Nat,
      ccomp_timer_impl_stop_preempted core c t1 t2 g = ccomp_timer_impl_stop core c g := by
    intro t1 t2
    have h1 : fire_ticks core t1
        ⟨g.s_status, esp_deregister_freertos_tick_hook_for_cpu core g.tick_cb⟩
        = ⟨g.s_status, esp_deregister_freertos_tick_hook_for_cpu core g.tick_cb⟩ :=
      fire_ticks_unregistered core t1 _ (deregister_registered core g.tick_cb)
    have h2 : fire_ticks core t2 (update_ccount core c
        ⟨g.s_status, esp_deregister_freertos_tick_hook_for_cpu core g.tick_cb⟩)
        = update_ccount core c
          ⟨g.s_status, esp_deregister_freertos_tick_hook_for_cpu core g.tick_cb⟩ :=
      fire_ticks_unregistered core t2 _
        (by rw [update_ccount_tick_cb]; exact deregister_registered core g.tick_cb)
    simp only [ccomp_timer_impl_stop_preempted, ccomp_timer_impl_stop, h1, h2]
  refine ⟨hpre, ?_, ?_, rfl, hcb, ?_, hst, ?_, rfl⟩
  · intro t1 t2
    rw [hpre t1 t2]
    exact hst
  · intro hreg c2 hlt hc2
    have hup := update_ccount_active core c g hact hVr hc
    rw [hV, hA] at hup
    simp only [step_amount, if_pos hg] at hup
    have hfire : fire_tick core c2 (update_ccount core c g)
        = update_ccount core c2 (update_ccount core c g) := by
      unfold fire_tick
      rw [update_ccount_tick_cb, if_pos hreg]
    rw [hfire, update_ccount_active core c2 (update_ccount core c g) (by rw [hup])
      (by rw [hup]; exact hc) hc2, hup]
    have hg2 : c2 > c := hlt
    simp only [step_amount, if_pos hg2]
  · rw [hcb]
    exact deregister_registered core g.tick_cb
  · intro hfit
    rw [hst]
    exact to_int64_of_in_range _ (by omega) hfit

/-- Witness for C16: a core started at count 100 with 7 cycles held, so that its
callback is registered, is stopped at count 350 while the scheduler ticks at
200 and at 400 between the statements of stop; it holds 257 cycles. -/
theorem stop_order_of_effects_witness :
    100 < 350
    ∧ 0 < ((ccomp_timer_impl_start 0 100 (globals_of ⟨0, PERF_TIMER_IDLE, 7⟩)).2.tick_cb
        0).registered
    ∧ (ccomp_timer_impl_stop_preempted 0 350 [200] [400]
        (ccomp_timer_impl_start 0 100 (globals_of ⟨0, PERF_TIMER_IDLE, 7⟩)).2).2.s_status 0
        = ⟨350, PERF_TIMER_IDLE, to_int64 (7 + ((350 : Nat) - (100 : Nat)))⟩
    ∧ to_int64 (7 + (((350 : Nat) : Int) - ((100 : Nat) : Int))) = 257 :=
  ⟨by decide, by decide,
    (stop_order_of_effects 0 350 100 7
      (ccomp_timer_impl_start 0 100 (globals_of ⟨0, PERF_TIMER_IDLE, 7⟩)).2
      (by decide) (by decide) (by decide)
      ⟨by decide, by decide, by decide⟩
      (by decide) (by decide)).2.1 [200] [400],
    by decide⟩

/-! ## An unchanged count -/

/-- C18: an accumulation step on an Active record that reads a count equal to
last_sample takes the branch for a wrapped counter and adds UINT32_MAX =
4294967295 (in 64-bit arithmetic, exactly whenever the sum fits the
accumulator), not 0; so a start directly followed by a stop that reads the
same count leaves UINT32_MAX more cycles than before, and the second of two
get_elapsed_microseconds calls that read the same count adds UINT32_MAX. -/
theorem update_ccount_same_count (core c : Nat) (A : Int) (F : Int) (g : ccomp_timer_globals)
    (hact : (g.s_status core).state = PERF_TIMER_ACTIVE)
    (hV : (g.s_status core).last_ccount = c) (hA : (g.s_status core).ccount = A)
    (hr : (g.s_status core).in_range) :
    step_amount c c = 4294967295
    ∧ ¬ (to_int64 (c : Int) > ((g.s_status core).last_ccount : Int))
    ∧ (update_ccount core c g).s_status core
        = ⟨c, PERF_TIMER_ACTIVE, to_int64 (A + 4294967295)⟩
    ∧ (A + 4294967295 ≤ INT64_MAX →
        ((update_ccount core c g).s_status core).ccount = A + 4294967295)
    ∧ (ccomp_timer_impl_stop core c (ccomp_timer_impl_start core c g).2).2.s_status core
        = ⟨c, PERF_TIMER_IDLE, to_int64 (A + 4294967295)⟩
    ∧ ((ccomp_timer_impl_get_time core c F (ccomp_timer_impl_get_time core c F g).2).2.s_status
          core).ccount
        = to_int64 (((ccomp_timer_impl_get_time core c F g).2.s_status core).ccount
            + 4294967295) := by
  obtain ⟨hVr, hlo, _⟩ := hr
  rw [hV] at hVr
  rw [hA] at hlo
  have hc : c ≤ UINT32_MAX := hVr
  have hc2 : c ≤ 4294967295 := hVr
  have hamt : step_amount c c = 4294967295 := by
    unfold step_amount UINT32_MAX
    rw [if_neg (Nat.lt_irrefl c)]
    omega
  have hup := update_ccount_active core c g hact (by rw [hV]; exact hc) hc
  rw [hV, hA, hamt] at hup
  have hc32 : to_uint32 (c : Int) = c := to_uint32_of_le c hc
  refine ⟨hamt, ?_, hup, ?_, ?_, ?_⟩
  · rw [hV]
    unfold to_int64
    omega
  · intro hfit
    rw [hup]
    exact to_int64_of_in_range _ (by omega) hfit
  · rw [stop_status_active core c _ (by rw [start_status])
      (by rw [start_status, hc32]; exact hc) hc]
    rw [start_status, hc32, hamt, hA]
  · have hg1 : (ccomp_timer_impl_get_time core c F g).2 = update_ccount core c g := rfl
    have hg2 : (ccomp_timer_impl_get_time core c F (update_ccount core c g)).2
        = update_ccount core c (update_ccount core c g) := rfl
    rw [hg1, hg2]
    rw [update_ccount_active core c (update_ccount core c g) (by rw [hup])
      (by rw [hup]; exact hc) hc]
    rw [hup, hamt]

/-- Witness for C18: an Active core with baseline 500 and 10 cycles accumulated
that reads 500 again holds 4294967305 cycles. -/
theorem update_ccount_same_count_witness :
    ((globals_of ⟨500, PERF_TIMER_ACTIVE, 10⟩).s_status 0).last_ccount = 500
    ∧ ((update_ccount 0 500 (globals_of ⟨500, PERF_TIMER_ACTIVE, 10⟩)).s_status 0).ccount
        = 10 + 4294967295 :=
  ⟨rfl,
    (update_ccount_same_count 0 500 10 1000000 (globals_of ⟨500, PERF_TIMER_ACTIVE, 10⟩)
      rfl rfl rfl
      (by simp [ccomp_timer_status_t.in_range, globals_of, UINT32_MAX, INT64_MIN, INT64_MAX])
      ).2.2.2.1 (by decide)⟩

/-! ## Sign of the accumulator -/

theorem step_amount_bounds (V c : Nat) (hV : V ≤ UINT32_MAX) (hc : c ≤ UINT32_MAX) :
    0 ≤ step_amount V c ∧ step_amount V c ≤ (UINT32_MAX : Int) := by
  unfold step_amount
  unfold UINT32_MAX at *
  split <;> omega

theorem to_uint32_le (x : Int) : to_uint32 x ≤ UINT32_MAX := by
  unfold to_uint32 UINT32_MAX
  omega

/-- An accumulation step that does not overflow keeps the baseline a 32-bit value
and the accumulator non-negative. -/
theorem update_ccount_nonneg (core c : Nat) (g : ccomp_timer_globals)
    (hVr : (g.s_status core).last_ccount ≤ UINT32_MAX) (h0 : 0 ≤ (g.s_status core).ccount)
    (hc : c ≤ UINT32_MAX)
    (hfit : (g.s_status core).state = PERF_TIMER_ACTIVE →
      (g.s_status core).ccount + step_amount (g.s_status core).last_ccount c ≤ INT64_MAX) :
    ((update_ccount core c g).s_status core).last_ccount ≤ UINT32_MAX
    ∧ 0 ≤ ((update_ccount core c g).s_status core).ccount := by
  by_cases hact : (g.s_status core).state = PERF_TIMER_ACTIVE
  · have hb := step_amount_bounds _ c hVr hc
    rw [update_ccount_active core c g hact hVr hc]
    refine ⟨hc, ?_⟩
    show 0 ≤ to_int64 _
    rw [to_int64_of_in_range _ (by unfold INT64_MIN; omega) (hfit hact)]
    omega
  · rw [update_ccount_inactive core c g hact]
    exact ⟨hVr, h0⟩

/-- One call that does not overflow keeps, on every core, the baseline a 32-bit
value and the accumulator non-negative. -/
theorem apply_call_nonneg (g : ccomp_timer_globals) (x : ccomp_call)
    (hinv : ∀ k, (g.s_status k).last_ccount ≤ UINT32_MAX ∧ 0 ≤ (g.s_status k).ccount)
    (hstep : no_overflow_step g x) :
    ∀ k, ((apply_call g x).s_status k).last_ccount ≤ UINT32_MAX
      ∧ 0 ≤ ((apply_call g x).s_status k).ccount := by
  intro k
  by_cases hk : x.core = k
  · obtain ⟨xcore, op⟩ := x
    simp only at hk
    subst hk
    have hi := hinv xcore
    cases op with
    | init => simp only [apply_call]; rw [init_status]; exact hi
    | deinit => simp only [apply_call]; rw [deinit_status]; exact hi
    | start c1 =>
      simp only [apply_call]
      rw [start_status]
      exact ⟨to_uint32_le (c1 : Int), hi.2⟩
    | stop c1 =>
      simp only [no_overflow_step, ccomp_op.sample] at hstep
      have hu := update_ccount_nonneg xcore c1
        ⟨g.s_status, esp_deregister_freertos_tick_hook_for_cpu xcore g.tick_cb⟩
        hi.1 hi.2 hstep.1 hstep.2
      simp only [apply_call, ccomp_timer_impl_stop, set_status_same]
      exact hu
    | reset =>
      simp only [apply_call]
      rw [reset_status]
      exact ⟨Nat.zero_le _, le_refl _⟩
    | get_time c1 f =>
      simp only [no_overflow_step, ccomp_op.sample] at hstep
      exact update_ccount_nonneg xcore c1 g hi.1 hi.2 hstep.1 hstep.2
    | is_init => exact hi
    | is_active => exact hi
    | tick c1 =>
      simp only [no_overflow_step, ccomp_op.sample] at hstep
      exact update_ccount_nonneg xcore c1 g hi.1 hi.2 hstep.1 hstep.2
  · rw [apply_call_other g x k hk]
    exact hinv k

theorem run_calls_nonneg (xs : List ccomp_call) :
    ∀ g : ccomp_timer_globals,
      (∀ k, (g.s_status k).last_ccount ≤ UINT32_MAX ∧ 0 ≤ (g.s_status k).ccount) →
      no_overflow_along g xs →
      ∀ k, ((run_calls g xs).s_status k).last_ccount ≤ UINT32_MAX
        ∧ 0 ≤ ((run_calls g xs).s_status k).ccount := by
  induction xs with
  | nil => intro g hinv _; exact hinv
  | cons a l ih =>
    intro g hinv hal
    exact ih (apply_call g a) (apply_call_nonneg g a hinv hal.1) hal.2

/-- C17: an accumulation step on an Active record adds to accumulated_cycles, in
64-bit arithmetic, an amount d with 0 <= d <= UINT32_MAX, so short of
overflow accumulated_cycles does not decrease; and after every sequence of
calls and callback firings from the boot state in which no step overflows the
accumulator, accumulated_cycles of every core is >= 0. -/
theorem accumulated_nonneg (core c : Nat) (g : ccomp_timer_globals)
    (hact : (g.s_status core).state = PERF_TIMER_ACTIVE)
    (hr : (g.s_status core).in_range) (hc : c ≤ UINT32_MAX) :
    (0 ≤ step_amount (g.s_status core).last_ccount c
      ∧ step_amount (g.s_status core).last_ccount c ≤ (UINT32_MAX : Int)
      ∧ ((update_ccount core c g).s_status core).ccount
          = to_int64 ((g.s_status core).ccount + step_amount (g.s_status core).last_ccount c)
      ∧ ((g.s_status core).ccount + step_amount (g.s_status core).last_ccount c ≤ INT64_MAX →
          (g.s_status core).ccount ≤ ((update_ccount core c g).s_status core).ccount))
    ∧ (∀ (hooks : Nat → tick_hooks_t) (xs : List ccomp_call) (k : Nat),
        no_overflow_along (s_status_boot hooks) xs →
        0 ≤ ((run_calls (s_status_boot hooks) xs).s_status k).ccount) := by
  obtain ⟨hVr, hlo, _⟩ := hr
  have hb := step_amount_bounds _ c hVr hc
  have hup := update_ccount_active core c g hact hVr hc
  refine ⟨⟨hb.1, hb.2, by rw [hup], ?_⟩, ?_⟩
  · intro hfit
    rw [hup]
    show _ ≤ to_int64 _
    rw [to_int64_of_in_range _ (by omega) hfit]
    omega
  · intro hooks xs k hal
    exact (run_calls_nonneg xs (s_status_boot hooks)
      (fun _ => ⟨Nat.zero_le _, le_refl _⟩) hal k).2

/-- Witness for C17: a wrapped sample, from 4294967000 to 500, adds an amount
between 0 and UINT32_MAX and does not decrease the 1000 cycles held; and the
accumulator is non-negative after init, start at 100, a callback firing at
300 and a stop at the wrapped count 50. -/
theorem accumulated_nonneg_witness :
    ((globals_of ⟨4294967000, PERF_TIMER_ACTIVE, 1000⟩).s_status 0).state = PERF_TIMER_ACTIVE
    ∧ 0 ≤ step_amount ((globals_of ⟨4294967000, PERF_TIMER_ACTIVE, 1000⟩).s_status 0).last_ccount
        500
    ∧ ((globals_of ⟨4294967000, PERF_TIMER_ACTIVE, 1000⟩).s_status 0).ccount
        ≤ ((update_ccount 0 500 (globals_of ⟨4294967000, PERF_TIMER_ACTIVE, 1000⟩)).s_status
            0).ccount
    ∧ 0 ≤ ((run_calls (s_status_boot hooks_full)
        [⟨0, ccomp_op.init⟩, ⟨0, ccomp_op.start 100⟩, ⟨0, ccomp_op.tick 300⟩,
          ⟨0, ccomp_op.stop 50⟩]).s_status 0).ccount :=
  have h := accumulated_nonneg 0 500 (globals_of ⟨4294967000, PERF_TIMER_ACTIVE, 1000⟩) rfl
    (by simp [ccomp_timer_status_t.in_range, globals_of, UINT32_MAX, INT64_MIN, INT64_MAX])
    (by decide)
  ⟨rfl, h.1.1, h.1.2.2.2 (by decide),
    h.2 hooks_full
      [⟨0, ccomp_op.init⟩, ⟨0, ccomp_op.start 100⟩, ⟨0, ccomp_op.tick 300⟩,
        ⟨0, ccomp_op.stop 50⟩] 0
      ⟨trivial, trivial, ⟨by decide, fun _ => by decide!⟩,
        ⟨by decide, fun _ => by decide!⟩, trivial⟩⟩

/-! ## Monotonicity of the reading -/

theorem to_int64_range (x : Int) : INT64_MIN ≤ to_int64 x ∧ to_int64 x ≤ INT64_MAX := by
  unfold to_int64 INT64_MIN INT64_MAX
  omega

theorem tdiv_neg_eq (a F : Int) (ha : a < 0) (hF : 0 < F) : Int.tdiv a F = -((-a) / F) := by
  have h := Int.neg_tdiv (-a) F
  rw [neg_neg] at h
  rw [h, Int.tdiv_eq_ediv (by omega) hF.le]

/-- The truncating division by a positive divisor is monotone. -/
theorem tdiv_mono (a b F : Int) (hF : 0 < F) (hab : a ≤ b) : Int.tdiv a F ≤ Int.tdiv b F := by
  by_cases ha : 0 ≤ a
  · rw [Int.tdiv_eq_ediv ha hF.le, Int.tdiv_eq_ediv (by omega) hF.le]
    exact Int.ediv_le_ediv hF hab
  · by_cases hb : 0 ≤ b
    · rw [tdiv_neg_eq a F (by omega) hF, Int.tdiv_eq_ediv hb hF.le]
      have h1 : 0 ≤ (-a) / F := Int.ediv_nonneg (by omega) hF.le
      have h2 : 0 ≤ b / F := Int.ediv_nonneg hb hF.le
      omega
    · rw [tdiv_neg_eq a F (by omega) hF, tdiv_neg_eq b F (by omega) hF]
      have h1 : (-b) / F ≤ (-a) / F := Int.ediv_le_ediv hF (by omega)
      omega

/-- The truncating quotient of an `int64_t` by a positive divisor is an
`int64_t`. -/
theorem tdiv_in_range (a F : Int) (hF : 0 < F) (h1 : INT64_MIN ≤ a) (h2 : a ≤ INT64_MAX) :
    INT64_MIN ≤ Int.tdiv a F ∧ Int.tdiv a F ≤ INT64_MAX := by
  unfold INT64_MIN at *
  unfold INT64_MAX at *
  by_cases ha : 0 ≤ a
  · rw [Int.tdiv_eq_ediv ha hF.le]
    have h3 : 0 ≤ a / F := Int.ediv_nonneg ha hF.le
    have h4 : a / F ≤ a := Int.ediv_le_self _ ha
    omega
  · rw [tdiv_neg_eq a F (by omega) hF]
    have h3 : 0 ≤ (-a) / F := Int.ediv_nonneg (by omega) hF.le
    have h4 : (-a) / F ≤ -a := Int.ediv_le_self _ (by omega)
    omega

/-- Along callback firings on an Active core during which the product
accumulated_cycles * 1000000 stays below 2^63, the core stays Active and the
accumulator does not decrease. -/
theorem run_ticks_mono (core : Nat) (ts : List Nat) :
    ∀ g : ccomp_timer_globals, (g.s_status core).state = PERF_TIMER_ACTIVE →
      (g.s_status core).last_ccount ≤ UINT32_MAX → INT64_MIN ≤ (g.s_status core).ccount →
      (∀ t ∈ ts, t ≤ UINT32_MAX) → product_fits_along core ts g →
      ((run_ticks core ts g).s_status core).state = PERF_TIMER_ACTIVE
      ∧ ((run_ticks core ts g).s_status core).last_ccount ≤ UINT32_MAX
      ∧ (g.s_status core).ccount ≤ ((run_ticks core ts g).s_status core).ccount
      ∧ ((run_ticks core ts g).s_status core).ccount * 1000000 < 9223372036854775808 := by
  induction ts with
  | nil =>
    intro g hact hVr _ _ hfit
    exact ⟨hact, hVr, le_refl _, hfit⟩
  | cons t l ih =>
    intro g hact hVr hlo hts hfit
    obtain ⟨hfit0, hrest⟩ := hfit
    have ht : t ≤ UINT32_MAX := hts t (List.mem_cons_self t l)
    have hb := step_amount_bounds _ t hVr ht
    have hup := update_ccount_active core t g hact hVr ht
    have hsum : to_int64 ((g.s_status core).ccount + step_amount (g.s_status core).last_ccount t)
        = (g.s_status core).ccount + step_amount (g.s_status core).last_ccount t := by
      have hb2 := hb.2
      unfold UINT32_MAX at hb2
      unfold INT64_MIN at hlo
      apply to_int64_of_in_range
      · unfold INT64_MIN; omega
      · unfold INT64_MAX; omega
    rw [hsum] at hup
    have hnext := ih (update_ccount core t g) (by rw [hup]) (by rw [hup]; exact ht)
      (by rw [hup]; show INT64_MIN ≤ _ + _; omega)
      (fun u hu => hts u (List.mem_cons_of_mem t hu)) hrest
    have hrun : run_ticks core (t :: l) g = run_ticks core l (update_ccount core t g) := rfl
    rw [hrun]
    refine ⟨hnext.1, hnext.2.1, ?_, hnext.2.2.2⟩
    have h3 := hnext.2.2.1
    rw [hup] at h3
    have h4 : (g.s_status core).ccount + step_amount (g.s_status core).last_ccount t
        ≤ ((run_ticks core l (update_ccount core t g)).s_status core).ccount := h3
    omega

/-- C11: on an Active core and for a fixed frequency F > 0, a
get_elapsed_microseconds call, then any number of callback firings, then a
second get_elapsed_microseconds call return r1 and r2 with r1 <= r2, provided
the product accumulated_cycles * 1000000 stays in the 64-bit range: not below
-2^63 at the first reading (as for every accumulator >= 0) and below 2^63 at
that reading and after every later accumulation step. -/
theorem get_time_monotone (core c1 c2 : Nat) (ticks : List Nat) (F : Int)
    (g : ccomp_timer_globals)
    (hact : (g.s_status core).state = PERF_TIMER_ACTIVE)
    (hr : (g.s_status core).in_range) (hF : 0 < F)
    (hc1 : c1 ≤ UINT32_MAX) (hticks : ∀ t ∈ ticks, t ≤ UINT32_MAX) (hc2 : c2 ≤ UINT32_MAX)
    (hlow : -9223372036854775808
      ≤ ((ccomp_timer_impl_get_time core c1 F g).2.s_status core).ccount * 1000000)
    (hfit : product_fits_along core (ticks ++ [c2]) (ccomp_timer_impl_get_time core c1 F g).2) :
    (ccomp_timer_impl_get_time core c1 F g).1
      ≤ (ccomp_timer_impl_get_time core c2 F
          (run_ticks core ticks (ccomp_timer_impl_get_time core c1 F g).2)).1 := by
  have hg1 : (ccomp_timer_impl_get_time core c1 F g).2 = update_ccount core c1 g := rfl
  rw [hg1] at hlow hfit ⊢
  have hup := update_ccount_active core c1 g hact hr.1 hc1
  have hall : ∀ t ∈ ticks ++ [c2], t ≤ UINT32_MAX := by
    intro t ht
    rcases List.mem_append.mp ht with h | h
    · exact hticks t h
    · rw [List.mem_singleton.mp h]
      exact hc2
  have hrun := run_ticks_mono core (ticks ++ [c2]) (update_ccount core c1 g)
    (by rw [hup]) (by rw [hup]; exact hc1)
    (by rw [hup]; exact (to_int64_range _).1) hall hfit
  have happ : run_ticks core (ticks ++ [c2]) (update_ccount core c1 g)
      = update_ccount core c2 (run_ticks core ticks (update_ccount core c1 g)) := by
    simp [run_ticks, List.foldl_append]
  rw [happ] at hrun
  obtain ⟨_, _, hle, hhi⟩ := hrun
  have hr1 : (ccomp_timer_impl_get_time core c1 F g).1
      = to_int64 (Int.tdiv
          (to_int64 (((update_ccount core c1 g).s_status core).ccount * 1000000)) F) := rfl
  have hr2 : (ccomp_timer_impl_get_time core c2 F
        (run_ticks core ticks (update_ccount core c1 g))).1
      = to_int64 (Int.tdiv
          (to_int64 (((update_ccount core c2
            (run_ticks core ticks (update_ccount core c1 g))).s_status core).ccount
              * 1000000)) F) := rfl
  rw [hr1, hr2]
  generalize ((update_ccount core c1 g).s_status core).ccount = C1 at hlow hle ⊢
  generalize ((update_ccount core c2
    (run_ticks core ticks (update_ccount core c1 g))).s_status core).ccount = C2 at hle hhi ⊢
  have hp1 : to_int64 (C1 * 1000000) = C1 * 1000000 :=
    to_int64_of_in_range _ (by unfold INT64_MIN; omega) (by unfold INT64_MAX; omega)
  have hp2 : to_int64 (C2 * 1000000) = C2 * 1000000 :=
    to_int64_of_in_range _ (by unfold INT64_MIN; omega) (by unfold INT64_MAX; omega)
  rw [hp1, hp2]
  have hq1 := tdiv_in_range (C1 * 1000000) F hF (by unfold INT64_MIN; omega)
    (by unfold INT64_MAX; omega)
  have hq2 := tdiv_in_range (C2 * 1000000) F hF (by unfold INT64_MIN; omega)
    (by unfold INT64_MAX; omega)
  rw [to_int64_of_in_range _ hq1.1 hq1.2, to_int64_of_in_range _ hq2.1 hq2.2]
  exact tdiv_mono _ _ F hF (by omega)

/-- Witness for C11: an Active core with baseline 100 and 5 cycles held is read
at count 1100, fires its callback at 2000 and 3000 and is read again at 4000,
at 1 MHz. -/
theorem get_time_monotone_witness :
    ((globals_of ⟨100, PERF_TIMER_ACTIVE, 5⟩).s_status 0).state = PERF_TIMER_ACTIVE
    ∧ (0 : Int) < 1000000
    ∧ (ccomp_timer_impl_get_time 0 1100 1000000 (globals_of ⟨100, PERF_TIMER_ACTIVE, 5⟩)).1
      ≤ (ccomp_timer_impl_get_time 0 4000 1000000
          (run_ticks 0 [2000, 3000]
            (ccomp_timer_impl_get_time 0 1100 1000000
              (globals_of ⟨100, PERF_TIMER_ACTIVE, 5⟩)).2)).1 :=
  ⟨rfl, by decide,
    get_time_monotone 0 1100 4000 [2000, 3000] 1000000 (globals_of ⟨100, PERF_TIMER_ACTIVE, 5⟩)
      rfl
      (by simp [ccomp_timer_status_t.in_range, globals_of, UINT32_MAX, INT64_MIN, INT64_MAX])
      (by decide) (by decide) (by decide) (by decide) (by decide!)
      ⟨by decide!, by decide!, by decide!, show _ < _ by decide!⟩⟩

end CcompTimer
